import Mathlib

/-!
Shallow embedding of the finance/commission engine of the repository
(finance_logic.py together with the constants of config.py).

Monetary amounts (python Decimal) are modelled as rationals: every
operation used by the engine on Decimal values (addition, subtraction,
multiplication, comparison) is exact, so the embedding is faithful.
The python builtin int() truncates toward zero; it is modelled by pyInt.
Database rows are modelled as lists or as functions from ids; SQL
updates become record updates.  Time (NOW in SQL, datetime.now) is an
explicit Nat parameter measured in seconds.
-/

/-- config.py PLATFORM_MERCHANT_ID -/
def PLATFORM_MERCHANT_ID : Nat := 0

/-- config.py MEMBER_PRODUCT_PRICE = Decimal 1980.00 -/
def MEMBER_PRODUCT_PRICE : ℚ := 1980

/-- config.py MAX_POINTS_VALUE = Decimal 0.02 -/
def MAX_POINTS_VALUE : ℚ := 2/100

/-- config.py TAX_RATE = Decimal 0.06 -/
def TAX_RATE : ℚ := 6/100

/-- config.py POINTS_DISCOUNT_RATE = Decimal 1.0 -/
def POINTS_DISCOUNT_RATE : ℚ := 1

/-- config.py COUPON_VALID_DAYS -/
def COUPON_VALID_DAYS : Nat := 30

/-- config.py MAX_PURCHASE_PER_DAY -/
def MAX_PURCHASE_PER_DAY : Nat := 2

/-- config.py MAX_TEAM_LAYER -/
def MAX_TEAM_LAYER : Nat := 6

/-- python int() truncation toward zero, applied to a Decimal value -/
def pyInt (q : ℚ) : ℤ := if 0 ≤ q then ⌊q⌋ else -⌊-q⌋

/-- config.py AllocationKey: the account types of the finance_accounts table -/
inductive AccountKey where
  | public_welfare
  | platform
  | subsidy_pool
  | honor_director
  | community
  | city_center
  | region_company
  | development
  | platform_revenue_pool
  | company_points
  | company_balance
deriving DecidableEq, Repr

/-- config.py ALLOCATIONS: the fund allocation table (dict iteration order
is insertion order, preserved here as a list) -/
def ALLOCATIONS : List (AccountKey × ℚ) :=
  [ (.public_welfare, 1/100)
  , (.platform, 1/100)
  , (.subsidy_pool, 12/100)
  , (.honor_director, 2/100)
  , (.community, 1/100)
  , (.city_center, 1/100)
  , (.region_company, 5/1000)
  , (.development, 15/1000) ]

/-- the balances of the finance_accounts table, one field per account row -/
structure Accounts where
  public_welfare : ℚ
  platform : ℚ
  subsidy_pool : ℚ
  honor_director : ℚ
  community : ℚ
  city_center : ℚ
  region_company : ℚ
  development : ℚ
  platform_revenue_pool : ℚ
  company_points : ℚ
  company_balance : ℚ
deriving DecidableEq, Repr

def Accounts.get (a : Accounts) : AccountKey → ℚ
  | .public_welfare => a.public_welfare
  | .platform => a.platform
  | .subsidy_pool => a.subsidy_pool
  | .honor_director => a.honor_director
  | .community => a.community
  | .city_center => a.city_center
  | .region_company => a.region_company
  | .development => a.development
  | .platform_revenue_pool => a.platform_revenue_pool
  | .company_points => a.company_points
  | .company_balance => a.company_balance

/-- SQL: UPDATE finance_accounts SET balance = balance + amt WHERE account_type = k -/
def Accounts.add (a : Accounts) (k : AccountKey) (amt : ℚ) : Accounts :=
  match k with
  | .public_welfare => { a with public_welfare := a.public_welfare + amt }
  | .platform => { a with platform := a.platform + amt }
  | .subsidy_pool => { a with subsidy_pool := a.subsidy_pool + amt }
  | .honor_director => { a with honor_director := a.honor_director + amt }
  | .community => { a with community := a.community + amt }
  | .city_center => { a with city_center := a.city_center + amt }
  | .region_company => { a with region_company := a.region_company + amt }
  | .development => { a with development := a.development + amt }
  | .platform_revenue_pool =>
      { a with platform_revenue_pool := a.platform_revenue_pool + amt }
  | .company_points => { a with company_points := a.company_points + amt }
  | .company_balance => { a with company_balance := a.company_balance + amt }

/-- account_type strings used by get_account_balance / record flows -/
def parseAccountKey (s : String) : Option AccountKey :=
  if s = "public_welfare" then some .public_welfare
  else if s = "platform" then some .platform
  else if s = "subsidy_pool" then some .subsidy_pool
  else if s = "honor_director" then some .honor_director
  else if s = "community" then some .community
  else if s = "city_center" then some .city_center
  else if s = "region_company" then some .region_company
  else if s = "development" then some .development
  else if s = "platform_revenue_pool" then some .platform_revenue_pool
  else if s = "company_points" then some .company_points
  else if s = "company_balance" then some .company_balance
  else none

/-- one row of the users table (the columns the engine touches) -/
structure User where
  memberLevel : Nat
  points : ℤ
  promotionBalance : ℚ
  merchantPoints : ℤ
  merchantBalance : ℚ
  status : ℤ
deriving DecidableEq, Repr

/-- one row of the products table -/
structure Product where
  id : Nat
  price : ℚ
  isMemberProduct : Bool
  merchantId : Nat
  status : ℤ
deriving DecidableEq, Repr

/-- one row of the orders table -/
structure Order where
  id : Nat
  orderNo : String
  userId : Nat
  merchantId : Nat
  totalAmount : ℚ
  originalAmount : ℚ
  pointsDiscount : ℚ
  isMemberOrder : Bool
  status : String
  refundStatus : Option String
  createdAt : Nat
deriving DecidableEq, Repr

/-- one row of the order_items table -/
structure OrderItem where
  orderId : Nat
  productId : Nat
  quantity : Nat
  unitPrice : ℚ
  totalPrice : ℚ
deriving DecidableEq, Repr

/-- one row of the pending_rewards table -/
structure PendingReward where
  id : Nat
  userId : Nat
  rewardType : String
  amount : ℚ
  orderId : Nat
  layer : Option Nat
  status : String
deriving DecidableEq, Repr

/-- one row of the team_rewards table (read by refund_order) -/
structure TeamReward where
  orderId : Nat
  userId : Nat
  rewardAmount : ℚ
  layer : Nat
deriving DecidableEq, Repr

/-- one row of the coupons table -/
structure Coupon where
  id : Nat
  userId : Nat
  couponType : String
  amount : ℚ
  validFrom : Nat
  validTo : Nat
  status : String
deriving DecidableEq, Repr

/-- one row of the withdrawals table -/
structure Withdrawal where
  id : Nat
  userId : Nat
  amount : ℚ
  taxAmount : ℚ
  actualAmount : ℚ
  status : String
  withdrawalType : String
deriving DecidableEq, Repr

/-- one row of the account_flow audit table -/
structure AccountFlow where
  accountType : String
  relatedUser : Option Nat
  changeAmount : ℚ
  balanceAfter : ℚ
  flowType : String
deriving DecidableEq, Repr

/-- one row of the points_log table -/
structure PointsLog where
  userId : Nat
  changeAmount : ℤ
  balanceAfter : ℤ
  logType : String
  orderId : Nat
deriving DecidableEq, Repr

/-- one row of the weekly_subsidy_records table; couponId is none when the
python variable coupon_id would be unbound at the insert -/
structure SubsidyRecord where
  userId : Nat
  weekStart : Nat
  subsidyAmount : ℚ
  pointsBefore : ℤ
  pointsDeducted : ℤ
  couponId : Option Nat
deriving DecidableEq, Repr

/-- the whole database state the engine reads and writes -/
structure State where
  userIds : List Nat
  users : Nat → User
  referrals : Nat → Option Nat
  products : List Product
  accounts : Accounts
  orders : List Order
  orderItems : List OrderItem
  pendingRewards : List PendingReward
  teamRewards : List TeamReward
  coupons : List Coupon
  withdrawals : List Withdrawal
  flows : List AccountFlow
  pointsLog : List PointsLog
  subsidyRecords : List SubsidyRecord
  nextOrderId : Nat
  nextRewardId : Nat
  nextCouponId : Nat
  nextWithdrawalId : Nat

/-- SQL: SELECT ... FROM users WHERE id = uid (fetchone) -/
def State.findUser (st : State) (uid : Nat) : Option User :=
  if uid ∈ st.userIds then some (st.users uid) else none

/-- SQL: UPDATE users SET ... WHERE id = uid -/
def State.updateUser (st : State) (uid : Nat) (f : User → User) : State :=
  { st with users := fun i => if i = uid then f (st.users i) else st.users i }

/-- SQL: SELECT price, is_member_product, merchant_id FROM products
WHERE id = pid AND status = 1 -/
def State.findProduct (st : State) (pid : Nat) : Option Product :=
  st.products.find? (fun p => p.id == pid && p.status == 1)

/-- get_user_balance: returns 0 when the user row is missing -/
def State.getUserBalance (st : State) (uid : Nat) (balanceType : String) : ℚ :=
  match st.findUser uid with
  | none => 0
  | some u =>
      if balanceType = "promotion_balance" then u.promotionBalance
      else if balanceType = "merchant_balance" then u.merchantBalance
      else 0

/-- get_account_balance: returns 0 when the account row is missing -/
def State.getAccountBalance (st : State) (accountType : String) : ℚ :=
  match parseAccountKey accountType with
  | some k => st.accounts.get k
  | none => 0

/-- python truthiness of an optional id (0 and NULL are falsy) -/
def truthyId : Option Nat → Bool
  | none => false
  | some n => n ≠ 0

/-- helper _get_balance_after of FinanceService -/
def State.getBalanceAfter (st : State) (accountType : String) (relatedUser : Option Nat) : ℚ :=
  if truthyId relatedUser &&
      (accountType == "promotion_balance" || accountType == "merchant_balance") then
    st.getUserBalance (relatedUser.getD 0) accountType
  else
    st.getAccountBalance accountType

/-- helper _record_flow of FinanceService (the free text remark is dropped) -/
def State.recordFlow (st : State) (accountType : String) (relatedUser : Option Nat)
    (changeAmount : ℚ) (flowType : String) : State :=
  let balanceAfter := st.getBalanceAfter accountType relatedUser
  { st with flows := st.flows ++ [⟨accountType, relatedUser, changeAmount, balanceAfter, flowType⟩] }

/-- check_purchase_limit: COUNT member orders of the user in the last 24
hours that are not refunded, compared with MAX_PURCHASE_PER_DAY -/
def checkPurchaseLimit (st : State) (now : Nat) (userId : Nat) : Bool :=
  (st.orders.filter (fun o =>
    o.userId == userId && o.isMemberOrder &&
    decide (now ≤ o.createdAt + 86400) && o.status != "refunded")).length
  < MAX_PURCHASE_PER_DAY

/-- helper _apply_points_discount of FinanceService -/
def applyPointsDiscount (st : State) (userId : Nat) (user : User)
    (pointsToUse : Nat) (amount : ℚ) : Except String State :=
  if user.points < (pointsToUse : ℤ) then
    .error "insufficient points"
  else
    let maxDiscount := amount * (1/2)
    if (pointsToUse : ℚ) > maxDiscount then
      .error "points discount above half of the order amount"
    else
      let st := st.updateUser userId (fun u => { u with points := u.points - (pointsToUse : ℤ) })
      .ok { st with accounts := st.accounts.add .company_points (pointsToUse : ℚ) }

/-- helper _create_order of FinanceService; the order_items insert hardcodes
quantity 1 and uses the original amount as unit price, as the source does -/
def createOrder (st : State) (now : Nat) (orderNo : String)
    (userId merchantId productId : Nat)
    (totalAmount originalAmount pointsDiscount : ℚ) (isMember : Bool) : State × Nat :=
  let orderId := st.nextOrderId
  let order : Order :=
    ⟨orderId, orderNo, userId, merchantId, totalAmount, originalAmount,
     pointsDiscount, isMember, "completed", none, now⟩
  let item : OrderItem := ⟨orderId, productId, 1, originalAmount, originalAmount⟩
  ({ st with
      orders := st.orders ++ [order]
      orderItems := st.orderItems ++ [item]
      nextOrderId := orderId + 1 }, orderId)

/-- one iteration of the _allocate_funds_to_pools loop over ALLOCATIONS:
skip the platform revenue key, credit the pool, record a flow for the
public welfare credit -/
def allocStep (totalAmount : ℚ) (s : State) (pp : AccountKey × ℚ) : State :=
  if pp.1 = AccountKey.platform_revenue_pool then s
  else
    let s2 := { s with accounts := s.accounts.add pp.1 (totalAmount * pp.2) }
    if pp.1 = AccountKey.public_welfare then
      s2.recordFlow "public_welfare" none (totalAmount * pp.2) "income"
    else s2

/-- helper _allocate_funds_to_pools: 80 percent to the platform revenue
pool, then every ALLOCATIONS share -/
def allocateFundsToPools (st : State) (totalAmount : ℚ) : State :=
  let st := { st with
    accounts := st.accounts.add .platform_revenue_pool (totalAmount * (80/100)) }
  ALLOCATIONS.foldl (allocStep totalAmount) st

/-- append a pending_rewards row (INSERT INTO pending_rewards) -/
def insertPendingReward (st : State) (userId : Nat) (rewardType : String)
    (amount : ℚ) (orderId : Nat) (layer : Option Nat) : State :=
  { st with
      pendingRewards := st.pendingRewards ++
        [⟨st.nextRewardId, userId, rewardType, amount, orderId, layer, "pending"⟩]
      nextRewardId := st.nextRewardId + 1 }

/-- the referral chain loop of _create_pending_rewards: ascend up to n
hops, remembering the last referrer seen, stopping at a missing edge -/
def chainWalkAux (st : State) : Nat → Nat → Option Nat → Option Nat
  | 0, _, target => target
  | n + 1, current, target =>
    match st.referrals current with
    | none => target
    | some r => chainWalkAux st n r (some r)

/-- helper _create_pending_rewards of FinanceService.  Reading the member
level of the walk target uses fetchone().member_level, which raises when
the user row is missing; that raise is the error case here. -/
def createPendingRewards (st : State) (orderId buyerId : Nat)
    (oldLevel newLevel : Nat) : Except String State :=
  let st :=
    if oldLevel = 0 then
      match st.referrals buyerId with
      | some referrerId =>
          insertPendingReward st referrerId "referral"
            (MEMBER_PRODUCT_PRICE * (50/100)) orderId none
      | none => st
    else st
  if oldLevel = 0 ∧ newLevel = 1 then
    .ok st
  else
    let targetLayer := newLevel
    match chainWalkAux st targetLayer buyerId none with
    | none => .ok st
    | some target =>
      match st.findUser target with
      | none => .error "referrer user row missing"
      | some u =>
        if targetLayer ≤ u.memberLevel then
          .ok (insertPendingReward st target "team"
                (MEMBER_PRODUCT_PRICE * (50/100)) orderId (some targetLayer))
        else .ok st

/-- the part of _process_member_order before the pending reward creation:
fund allocation, level raise, point accrual and its log entry -/
def memberOrderPreRewards (st : State) (orderId userId : Nat) (user : User)
    (unitPrice : ℚ) (quantity : Nat) : State :=
  let totalAmount := unitPrice * (quantity : ℚ)
  let st := allocateFundsToPools st totalAmount
  let newLevel := min (user.memberLevel + quantity) 6
  let st := st.updateUser userId (fun u => { u with memberLevel := newLevel })
  let pointsEarned := pyInt (unitPrice * (quantity : ℚ))
  let st := st.updateUser userId (fun u => { u with points := u.points + pointsEarned })
  let newPoints := (st.users userId).points
  { st with pointsLog := st.pointsLog ++
    [⟨userId, pointsEarned, newPoints, "member", orderId⟩] }

/-- helper _process_member_order of FinanceService -/
def processMemberOrder (st : State) (orderId userId : Nat) (user : User)
    (unitPrice : ℚ) (quantity : Nat) : Except String State :=
  let totalAmount := unitPrice * (quantity : ℚ)
  let oldLevel := user.memberLevel
  let newLevel := min (oldLevel + quantity) 6
  let st := memberOrderPreRewards st orderId userId user unitPrice quantity
  match createPendingRewards st orderId userId oldLevel newLevel with
  | .error e => .error e
  | .ok st =>
    let companyPoints := pyInt (totalAmount * (20/100))
    .ok { st with accounts := st.accounts.add .company_points (companyPoints : ℚ) }

/-- one iteration of the allocation loop of _process_normal_order: credit
every ALLOCATIONS share and record a flow for the public welfare credit -/
def normalAllocStep (finalAmount : ℚ) (userId : Nat) (s : State) (pp : AccountKey × ℚ) : State :=
  let s2 := { s with accounts := s.accounts.add pp.1 (finalAmount * pp.2) }
  if pp.1 = AccountKey.public_welfare then
    s2.recordFlow "public_welfare" (some userId) (finalAmount * pp.2) "income"
  else s2

/-- helper _process_normal_order of FinanceService -/
def processNormalOrder (st : State) (orderId userId merchantId : Nat)
    (finalAmount : ℚ) (memberLevel : Nat) : State :=
  let st :=
    if merchantId ≠ PLATFORM_MERCHANT_ID then
      let merchantAmount := finalAmount * (80/100)
      let st := st.updateUser merchantId
        (fun u => { u with merchantBalance := u.merchantBalance + merchantAmount })
      st.recordFlow "merchant_balance" (some merchantId) merchantAmount "income"
    else
      { st with accounts := st.accounts.add .platform_revenue_pool (finalAmount * (80/100)) }
  let st := ALLOCATIONS.foldl (normalAllocStep finalAmount userId) st
  let st :=
    if 1 ≤ memberLevel then
      let pointsEarned := pyInt finalAmount
      let st := st.updateUser userId (fun u => { u with points := u.points + pointsEarned })
      let newPoints := (st.users userId).points
      { st with pointsLog := st.pointsLog ++
        [⟨userId, pointsEarned, newPoints, "member", orderId⟩] }
    else st
  if merchantId ≠ PLATFORM_MERCHANT_ID then
    let merchantPoints := pyInt (finalAmount * (20/100))
    if 0 < merchantPoints then
      let st := st.updateUser merchantId
        (fun u => { u with merchantPoints := u.merchantPoints + merchantPoints })
      let newMerchantPoints := (st.users merchantId).merchantPoints
      { st with pointsLog := st.pointsLog ++
        [⟨merchantId, merchantPoints, newMerchantPoints, "merchant", orderId⟩] }
    else st
  else st

/-- settle_order of FinanceService.  An error value stands for a raised
exception: the transaction is not committed, so no state is returned. -/
def settleOrder (st : State) (now : Nat) (orderNo : String)
    (userId productId : Nat) (quantity : Nat) (pointsToUse : Nat) :
    Except String (State × Nat) :=
  match st.findProduct productId with
  | none => .error "product missing or inactive"
  | some product =>
    let merchantId := product.merchantId
    if merchantId ≠ PLATFORM_MERCHANT_ID ∧ st.findUser merchantId = none then
      .error "merchant missing"
    else if product.isMemberProduct ∧ ¬ (checkPurchaseLimit st now userId = true) then
      .error "member purchase limit exceeded in 24 hours"
    else
      let unitPrice := product.price
      let originalAmount := unitPrice * (quantity : ℚ)
      match st.findUser userId with
      | none => .error "user missing"
      | some user =>
        let afterDiscount : Except String (State × ℚ × ℚ) :=
          if ¬ product.isMemberProduct ∧ 0 < pointsToUse then
            match applyPointsDiscount st userId user pointsToUse originalAmount with
            | .error e => .error e
            | .ok st1 =>
                let pointsDiscount := (pointsToUse : ℚ) * POINTS_DISCOUNT_RATE
                .ok (st1, pointsDiscount, originalAmount - pointsDiscount)
          else .ok (st, 0, originalAmount)
        match afterDiscount with
        | .error e => .error e
        | .ok (st1, pointsDiscount, finalAmount) =>
          let created := createOrder st1 now orderNo userId merchantId productId
            finalAmount originalAmount pointsDiscount product.isMemberProduct
          let st2 := created.1
          let orderId := created.2
          if product.isMemberProduct then
            match processMemberOrder st2 orderId userId user unitPrice quantity with
            | .error e => .error e
            | .ok st3 => .ok (st3, orderId)
          else
            .ok (processNormalOrder st2 orderId userId merchantId finalAmount
                  user.memberLevel, orderId)

/-- audit_and_distribute_rewards of FinanceService.  The boolean result
mirrors the python return value; a false result leaves the state as it
was (the exception handler rolls the transaction back). -/
def auditAndDistributeRewards (st0 : State) (rewardIds : List Nat)
    (approve : Bool) (today : Nat) : State × Bool :=
  if rewardIds = [] then (st0, false)
  else
    let rewards := st0.pendingRewards.filter (fun r =>
      rewardIds.contains r.id && r.status == "pending")
    if rewards = [] then (st0, false)
    else if approve then
      let validTo := today + COUPON_VALID_DAYS
      let st := rewards.foldl (fun (s : State) (r : PendingReward) =>
        let couponId := s.nextCouponId
        let s : State := { s with
          coupons := s.coupons ++ [⟨couponId, r.userId, "user", r.amount, today, validTo, "unused"⟩]
          nextCouponId := couponId + 1 }
        let s : State := { s with pendingRewards := s.pendingRewards.map (fun pr =>
          if pr.id = r.id then { pr with status := "approved" } else pr) }
        s.recordFlow "coupon" (some r.userId) 0 "coupon") st0
      (st, true)
    else
      -- the reject branch updates every listed id, with no pending filter
      let st : State := { st0 with pendingRewards := st0.pendingRewards.map (fun pr =>
        if rewardIds.contains pr.id then { pr with status := "rejected" } else pr) }
      (st, true)

/-- SQL: UPDATE users SET promotion_balance = promotion_balance - amount
WHERE id = uid AND promotion_balance >= amount -/
def condSubtractPromotion (st : State) (uid : Nat) (amount : ℚ) : State :=
  match st.findUser uid with
  | none => st
  | some u =>
      if amount ≤ u.promotionBalance then
        st.updateUser uid (fun v => { v with promotionBalance := v.promotionBalance - amount })
      else st

/-- refund_order of FinanceService, exception-raising part -/
def refundOrderCore (st0 : State) (orderNo : String) : Except String State :=
  match st0.orders.find? (fun o => o.orderNo == orderNo) with
  | none => .error "order missing or already refunded"
  | some order =>
    if order.status = "refunded" then .error "order missing or already refunded"
    else
      let isMember := order.isMemberOrder
      let userId := order.userId
      let amount := order.totalAmount
      let merchantId := order.merchantId
      let st1 :=
        if isMember then
          let st :=
            match st0.referrals userId with
            | some referrerId =>
                condSubtractPromotion st0 referrerId (order.originalAmount * (50/100))
            | none => st0
          let rewards := st.teamRewards.filter (fun r => r.orderId == order.id)
          let st := rewards.foldl (fun (s : State) (r : TeamReward) => condSubtractPromotion s r.userId r.rewardAmount) st
          let userPoints := pyInt order.originalAmount
          let st := st.updateUser userId (fun u => { u with points := max (u.points - userPoints) 0 })
          st.updateUser userId (fun u => { u with memberLevel := u.memberLevel - 1 })
        else st0
      let merchantAmount := amount * (80/100)
      let afterPool : Except String State :=
        if isMember then
          if st1.getAccountBalance "platform_revenue_pool" < merchantAmount then
            .error "insufficient pool balance"
          else
            .ok { st1 with accounts := st1.accounts.add .platform_revenue_pool (-merchantAmount) }
        else
          if merchantId = PLATFORM_MERCHANT_ID then
            .ok { st1 with accounts := st1.accounts.add .platform_revenue_pool (-merchantAmount) }
          else
            if st1.getUserBalance merchantId "merchant_balance" < merchantAmount then
              .error "insufficient merchant balance"
            else
              .ok (st1.updateUser merchantId
                (fun u => { u with merchantBalance := u.merchantBalance - merchantAmount }))
      match afterPool with
      | .error e => .error e
      | .ok st2 =>
        -- the final update sets refund_status, not status
        .ok { st2 with orders := st2.orders.map (fun o =>
          if o.id = order.id then { o with refundStatus := some "refunded" } else o) }

/-- refund_order: the exception handler rolls back and returns False -/
def refundOrder (st : State) (orderNo : String) : State × Bool :=
  match refundOrderCore st orderNo with
  | .ok st1 => (st1, true)
  | .error _ => (st, false)

/-- apply_withdrawal of FinanceService; none stands for the python None
returned after rollback -/
def applyWithdrawal (st0 : State) (userId : Nat) (amount : ℚ)
    (withdrawalType : String) : State × Option Nat :=
  let balanceField :=
    if withdrawalType = "user" then "promotion_balance" else "merchant_balance"
  if st0.getUserBalance userId balanceField < amount then (st0, none)
  else
    let taxAmount := amount * TAX_RATE
    let actualAmount := amount - taxAmount
    let status := if 5000 < amount then "pending_manual" else "pending_auto"
    let withdrawalId := st0.nextWithdrawalId
    let st : State := { st0 with
      withdrawals := st0.withdrawals ++
        [⟨withdrawalId, userId, amount, taxAmount, actualAmount, status, withdrawalType⟩]
      nextWithdrawalId := withdrawalId + 1 }
    let st := st.updateUser userId (fun u =>
      if withdrawalType = "user" then
        { u with promotionBalance := u.promotionBalance - amount }
      else
        { u with merchantBalance := u.merchantBalance - amount })
    let st := st.recordFlow balanceField (some userId) (-amount) "expense"
    let st : State := { st with accounts := st.accounts.add .company_balance taxAmount }
    let st := st.recordFlow "company_balance" (some userId) taxAmount "income"
    (st, some withdrawalId)

/-- the per-user step of the weekly subsidy loop; the accumulator carries
the last inserted coupon id (python variable coupon_id) -/
def subsidyUserStep (today validTo : Nat) (pointsValue : ℚ)
    (acc : State × Option Nat) (row : Nat × ℤ) : State × Option Nat :=
  let s := acc.1
  let subsidyAmount := (row.2 : ℚ) * pointsValue
  let deductPoints := pyInt subsidyAmount
  if subsidyAmount ≤ 0 then acc
  else
    let couponId := s.nextCouponId
    let s : State := { s with
      coupons := s.coupons ++ [⟨couponId, row.1, "user", subsidyAmount, today, validTo, "unused"⟩]
      nextCouponId := couponId + 1 }
    let s := s.updateUser row.1 (fun u => { u with points := u.points - deductPoints })
    let s : State := { s with subsidyRecords := s.subsidyRecords ++
      [⟨row.1, today, subsidyAmount, row.2, deductPoints, some couponId⟩] }
    (s, some couponId)

/-- the per-merchant step of the weekly subsidy loop: the coupon insert and
the point deduction are commented out in the source, only the record is
written (with the stale coupon id of the user loop) -/
def subsidyMerchantStep (today : Nat) (pointsValue : ℚ)
    (acc : State × Option Nat) (row : Nat × ℤ) : State × Option Nat :=
  let s := acc.1
  let subsidyAmount := (row.2 : ℚ) * pointsValue
  let deductPoints := pyInt subsidyAmount
  if subsidyAmount ≤ 0 then acc
  else
    ({ s with subsidyRecords := s.subsidyRecords ++
      [⟨row.1, today, subsidyAmount, row.2, deductPoints, acc.2⟩] }, acc.2)

/-- distribute_weekly_subsidy of FinanceService.  The division producing
the per-point value is exact here, where Decimal rounds to 28 significant
digits; no claim depends on the quotient digits. -/
def distributeWeeklySubsidy (st0 : State) (today : Nat) : State × Bool :=
  let poolBalance := st0.getAccountBalance "subsidy_pool"
  if poolBalance ≤ 0 then (st0, false)
  else
    let userPoints : ℤ := (st0.userIds.map (fun i =>
      if 0 < (st0.users i).points then (st0.users i).points else 0)).sum
    let merchantPoints : ℤ := (st0.userIds.map (fun i =>
      if 0 < (st0.users i).merchantPoints then (st0.users i).merchantPoints else 0)).sum
    let companyPoints := st0.accounts.company_points
    let totalPoints := (userPoints : ℚ) + (merchantPoints : ℚ) + companyPoints
    if totalPoints ≤ 0 then (st0, false)
    else
      let pointsValue0 := poolBalance / totalPoints
      let pointsValue := if MAX_POINTS_VALUE < pointsValue0 then MAX_POINTS_VALUE else pointsValue0
      let validTo := today + COUPON_VALID_DAYS
      let userRows := st0.userIds.filterMap (fun i =>
        if 0 < (st0.users i).points then some (i, (st0.users i).points) else none)
      let afterUsers := userRows.foldl (subsidyUserStep today validTo pointsValue) (st0, none)
      let st1 := afterUsers.1
      let merchantRows := st1.userIds.filterMap (fun i =>
        if 0 < (st1.users i).merchantPoints then some (i, (st1.users i).merchantPoints) else none)
      let afterMerchants := merchantRows.foldl (subsidyMerchantStep today pointsValue) afterUsers
      (afterMerchants.1, true)

/-! ## Derived notions used to state the claims -/

/-- the ancestor exactly n hops up the referral chain, none when the
chain is shorter than n hops -/
def ancestorAt (st : State) : Nat → Nat → Option Nat
  | 0, u => some u
  | n + 1, u =>
    match st.referrals u with
    | none => none
    | some r => ancestorAt st n r

/-- the pending rewards a call appended (all inserts append at the end) -/
def newPendingRewards (st st1 : State) : List PendingReward :=
  st1.pendingRewards.drop st.pendingRewards.length

/-- total credited by a settlement to the eight allocation table pools -/
def allocPoolsDelta (st st1 : State) : ℚ :=
  (st1.accounts.public_welfare - st.accounts.public_welfare) +
  (st1.accounts.platform - st.accounts.platform) +
  (st1.accounts.subsidy_pool - st.accounts.subsidy_pool) +
  (st1.accounts.honor_director - st.accounts.honor_director) +
  (st1.accounts.community - st.accounts.community) +
  (st1.accounts.city_center - st.accounts.city_center) +
  (st1.accounts.region_company - st.accounts.region_company) +
  (st1.accounts.development - st.accounts.development)

/-- every monetary credit a settlement makes: the platform revenue share,
the merchant revenue share, and the allocation table pool credits (the
company points pools hold points, not money) -/
def monetaryCredit (st st1 : State) (merchantId : Nat) : ℚ :=
  (st1.accounts.platform_revenue_pool - st.accounts.platform_revenue_pool) +
  ((st1.users merchantId).merchantBalance - (st.users merchantId).merchantBalance) +
  allocPoolsDelta st st1

/-! ## Small frame lemmas -/

@[simp] lemma updateUser_users (st : State) (uid : Nat) (f : User → User) (v : Nat) :
    ((st.updateUser uid f).users) v = if v = uid then f (st.users v) else st.users v := rfl

@[simp] lemma updateUser_accounts (st : State) (uid : Nat) (f : User → User) :
    (st.updateUser uid f).accounts = st.accounts := rfl

@[simp] lemma updateUser_orders (st : State) (uid : Nat) (f : User → User) :
    (st.updateUser uid f).orders = st.orders := rfl

@[simp] lemma updateUser_pendingRewards (st : State) (uid : Nat) (f : User → User) :
    (st.updateUser uid f).pendingRewards = st.pendingRewards := rfl

@[simp] lemma updateUser_referrals (st : State) (uid : Nat) (f : User → User) :
    (st.updateUser uid f).referrals = st.referrals := rfl

@[simp] lemma updateUser_userIds (st : State) (uid : Nat) (f : User → User) :
    (st.updateUser uid f).userIds = st.userIds := rfl

@[simp] lemma recordFlow_accounts (st : State) (a : String) (ru : Option Nat) (c : ℚ) (ft : String) :
    (st.recordFlow a ru c ft).accounts = st.accounts := rfl

@[simp] lemma recordFlow_users (st : State) (a : String) (ru : Option Nat) (c : ℚ) (ft : String) :
    (st.recordFlow a ru c ft).users = st.users := rfl

@[simp] lemma recordFlow_orders (st : State) (a : String) (ru : Option Nat) (c : ℚ) (ft : String) :
    (st.recordFlow a ru c ft).orders = st.orders := rfl

@[simp] lemma recordFlow_pendingRewards (st : State) (a : String) (ru : Option Nat) (c : ℚ) (ft : String) :
    (st.recordFlow a ru c ft).pendingRewards = st.pendingRewards := rfl

@[simp] lemma recordFlow_referrals (st : State) (a : String) (ru : Option Nat) (c : ℚ) (ft : String) :
    (st.recordFlow a ru c ft).referrals = st.referrals := rfl

@[simp] lemma recordFlow_userIds (st : State) (a : String) (ru : Option Nat) (c : ℚ) (ft : String) :
    (st.recordFlow a ru c ft).userIds = st.userIds := rfl

@[simp] lemma insertPendingReward_users (st : State) (a : Nat) (b : String) (c : ℚ) (d : Nat) (e : Option Nat) :
    (insertPendingReward st a b c d e).users = st.users := rfl

@[simp] lemma insertPendingReward_accounts (st : State) (a : Nat) (b : String) (c : ℚ) (d : Nat) (e : Option Nat) :
    (insertPendingReward st a b c d e).accounts = st.accounts := rfl

@[simp] lemma insertPendingReward_orders (st : State) (a : Nat) (b : String) (c : ℚ) (d : Nat) (e : Option Nat) :
    (insertPendingReward st a b c d e).orders = st.orders := rfl

@[simp] lemma insertPendingReward_referrals (st : State) (a : Nat) (b : String) (c : ℚ) (d : Nat) (e : Option Nat) :
    (insertPendingReward st a b c d e).referrals = st.referrals := rfl

@[simp] lemma insertPendingReward_userIds (st : State) (a : Nat) (b : String) (c : ℚ) (d : Nat) (e : Option Nat) :
    (insertPendingReward st a b c d e).userIds = st.userIds := rfl

@[simp] lemma insertPendingReward_pendingRewards (st : State) (a : Nat) (b : String) (c : ℚ) (d : Nat) (e : Option Nat) :
    (insertPendingReward st a b c d e).pendingRewards =
      st.pendingRewards ++ [⟨st.nextRewardId, a, b, c, d, e, "pending"⟩] := rfl

/-! ## C9: the weekly subsidy run leaves the finance accounts untouched -/

lemma subsidyUserStep_accounts (today validTo : Nat) (pv : ℚ)
    (acc : State × Option Nat) (row : Nat × ℤ) :
    (subsidyUserStep today validTo pv acc row).1.accounts = acc.1.accounts := by
  unfold subsidyUserStep
  dsimp only
  split
  · rfl
  · rfl

lemma subsidyMerchantStep_accounts (today : Nat) (pv : ℚ)
    (acc : State × Option Nat) (row : Nat × ℤ) :
    (subsidyMerchantStep today pv acc row).1.accounts = acc.1.accounts := by
  unfold subsidyMerchantStep
  dsimp only
  split
  · rfl
  · rfl

lemma foldl_subsidyUserStep_accounts (today validTo : Nat) (pv : ℚ) :
    ∀ (rows : List (Nat × ℤ)) (acc : State × Option Nat),
      ((rows.foldl (subsidyUserStep today validTo pv) acc).1).accounts = acc.1.accounts := by
  intro rows
  induction rows with
  | nil => intro acc; rfl
  | cons r rs ih =>
      intro acc
      simpa [List.foldl_cons, subsidyUserStep_accounts] using
        (ih (subsidyUserStep today validTo pv acc r)).trans
          (subsidyUserStep_accounts today validTo pv acc r)

lemma foldl_subsidyMerchantStep_accounts (today : Nat) (pv : ℚ) :
    ∀ (rows : List (Nat × ℤ)) (acc : State × Option Nat),
      ((rows.foldl (subsidyMerchantStep today pv) acc).1).accounts = acc.1.accounts := by
  intro rows
  induction rows with
  | nil => intro acc; rfl
  | cons r rs ih =>
      intro acc
      simpa [List.foldl_cons, subsidyMerchantStep_accounts] using
        (ih (subsidyMerchantStep today pv acc r)).trans
          (subsidyMerchantStep_accounts today pv acc r)

lemma distributeWeeklySubsidy_accounts (st : State) (today : Nat) :
    ((distributeWeeklySubsidy st today).1).accounts = st.accounts := by
  unfold distributeWeeklySubsidy
  dsimp only
  split
  · rfl
  · split
    · rfl
    · simp only [foldl_subsidyMerchantStep_accounts, foldl_subsidyUserStep_accounts]

/-- C9: a weekly subsidy run never changes the subsidy pool balance and
never pays out or deducts the company points pool balance. -/
theorem weekly_subsidy_preserves_pool_and_company_points (st : State) (today : Nat) :
    ((distributeWeeklySubsidy st today).1).accounts.subsidy_pool = st.accounts.subsidy_pool ∧
    ((distributeWeeklySubsidy st today).1).accounts.company_points = st.accounts.company_points := by
  rw [distributeWeeklySubsidy_accounts]
  exact ⟨rfl, rfl⟩

/-! ## C8: withdrawal tax withholding, debit and audit routing -/

@[simp] lemma updateUser_withdrawals (st : State) (uid : Nat) (f : User → User) :
    (st.updateUser uid f).withdrawals = st.withdrawals := rfl

@[simp] lemma recordFlow_withdrawals (st : State) (a : String) (ru : Option Nat) (c : ℚ) (ft : String) :
    (st.recordFlow a ru c ft).withdrawals = st.withdrawals := rfl

/-- C8: a successful withdrawal application of amount A withholds exactly
A times the tax rate into the company balance pool, records a net payable
amount of exactly A times (1 - tax rate), debits the full gross amount
from the selected user balance, and lands in pending_manual exactly when
A is above the manual audit threshold of 5000, else in pending_auto. -/
theorem withdrawal_tax_threshold_and_debit
    (st : State) (uid : Nat) (A : ℚ) (wtype : String) (st1 : State) (wid : Nat)
    (hmem : uid ∈ st.userIds)
    (h : applyWithdrawal st uid A wtype = (st1, some wid)) :
    st1.accounts.company_balance = st.accounts.company_balance + A * TAX_RATE ∧
    (∃ w ∈ st1.withdrawals, w.id = wid ∧ w.userId = uid ∧ w.amount = A ∧
      w.taxAmount = A * TAX_RATE ∧ w.actualAmount = A * (1 - TAX_RATE) ∧
      (w.status = "pending_manual" ↔ 5000 < A) ∧
      (w.status = "pending_auto" ↔ ¬ 5000 < A)) ∧
    (wtype = "user" → (st1.users uid).promotionBalance = (st.users uid).promotionBalance - A) ∧
    (wtype ≠ "user" → (st1.users uid).merchantBalance = (st.users uid).merchantBalance - A) := by
  unfold applyWithdrawal at h
  dsimp only at h
  split at h <;> rename_i hw <;>
  [skip; skip] <;>
  · split at h
    · simp at h
    · rw [Prod.mk.injEq] at h
      obtain ⟨hst, hwid⟩ := h
      obtain rfl : st.nextWithdrawalId = wid := Option.some.inj hwid
      subst hst
      refine ⟨by simp [Accounts.add], ?_, ?_, ?_⟩
      · refine ⟨⟨st.nextWithdrawalId, uid, A, A * TAX_RATE, A - A * TAX_RATE,
          if 5000 < A then "pending_manual" else "pending_auto", wtype⟩, ?_, rfl, rfl, rfl, rfl, by ring, ?_, ?_⟩
        · simp
        · by_cases hA : 5000 < A <;> simp [hA]
        · by_cases hA : 5000 < A <;> simp [hA]
      · intro hu
        first
        | exact absurd hu hw
        | simp [hw]
      · intro hu
        first
        | exact absurd hw hu
        | simp [hw]

def zeroAccounts : Accounts := ⟨0, 0, 0, 0, 0, 0, 0, 0, 0, 0, 0⟩

def defaultUser : User := ⟨0, 0, 0, 0, 0, 1⟩

/-- a small concrete database used by the witness states -/
def mkState (ids : List Nat) (users : Nat → User) (refs : Nat → Option Nat)
    (prods : List Product) (acc : Accounts) : State :=
  { userIds := ids, users := users, referrals := refs, products := prods,
    accounts := acc, orders := [], orderItems := [], pendingRewards := [],
    teamRewards := [], coupons := [], withdrawals := [], flows := [],
    pointsLog := [], subsidyRecords := [], nextOrderId := 1, nextRewardId := 1,
    nextCouponId := 1, nextWithdrawalId := 1 }

def c8State : State :=
  mkState [1] (fun _ => { defaultUser with promotionBalance := 100 }) (fun _ => none)
    [] zeroAccounts

/-- witness for C8 at a concrete input -/
theorem withdrawal_tax_threshold_and_debit_witness :
    (applyWithdrawal c8State 1 10 "user").1.accounts.company_balance =
      c8State.accounts.company_balance + 10 * TAX_RATE ∧
    (∃ w ∈ (applyWithdrawal c8State 1 10 "user").1.withdrawals, w.id = 1 ∧ w.userId = 1 ∧
      w.amount = 10 ∧ w.taxAmount = 10 * TAX_RATE ∧ w.actualAmount = 10 * (1 - TAX_RATE) ∧
      (w.status = "pending_manual" ↔ 5000 < (10 : ℚ)) ∧
      (w.status = "pending_auto" ↔ ¬ 5000 < (10 : ℚ))) ∧
    ((("user" : String)) = "user" →
      ((applyWithdrawal c8State 1 10 "user").1.users 1).promotionBalance =
        (c8State.users 1).promotionBalance - 10) ∧
    ((("user" : String)) ≠ "user" →
      ((applyWithdrawal c8State 1 10 "user").1.users 1).merchantBalance =
        (c8State.users 1).merchantBalance - 10) :=
  withdrawal_tax_threshold_and_debit c8State 1 10 "user"
    (applyWithdrawal c8State 1 10 "user").1 1 (by decide) (by rfl)

/-! ## C3: refund of a missing order fails, but a second refund of the
same order is not rejected, because refund_order checks orders.status
while it only ever sets orders.refund_status -/

def exceptIsOk : Except String (State × Nat) → Bool
  | .ok _ => true
  | .error _ => false

def c3Base : State :=
  mkState [1] (fun _ => defaultUser) (fun _ => none) [⟨1, 10, false, 0, 1⟩] zeroAccounts

def c3Settled : State :=
  match settleOrder c3Base 0 "o1" 1 1 1 0 with
  | .ok r => r.1
  | .error _ => c3Base

/-- C3: on the settled state, refunding a missing order number fails, the
first refund of order o1 succeeds and marks refund_status refunded, and
the second refund of the very same order succeeds again instead of being
rejected, because the guard reads the untouched status column. -/
theorem refund_double_refund_not_rejected :
    exceptIsOk (settleOrder c3Base 0 "o1" 1 1 1 0) = true ∧
    (refundOrder c3Settled "missing").2 = false ∧
    (refundOrder c3Settled "o1").2 = true ∧
    (((refundOrder c3Settled "o1").1.orders.find? (fun o => o.orderNo == "o1")).map
      (fun o => o.refundStatus)) = some (some "refunded") ∧
    (((refundOrder c3Settled "o1").1.orders.find? (fun o => o.orderNo == "o1")).map
      (fun o => o.status)) = some "completed" ∧
    (refundOrder (refundOrder c3Settled "o1").1 "o1").2 = true := by
  decide

/-! ## C4: batch reject does not exclude non-pending rewards -/

def c4State : State :=
  { mkState [1, 2] (fun _ => defaultUser) (fun _ => none) [] zeroAccounts with
      pendingRewards :=
        [⟨1, 1, "referral", 990, 1, none, "pending"⟩,
         ⟨2, 1, "referral", 990, 1, none, "approved"⟩]
      nextRewardId := 3 }

/-- C4: rejecting the batch containing reward 1 (pending) and reward 2
(already approved) succeeds and flips reward 2 to rejected: the approved
state is not terminal under the reject branch, which updates every listed
id with no pending filter. -/
theorem reject_batch_flips_approved_reward :
    ((c4State.pendingRewards.find? (fun r => r.id == 2)).map (fun r => r.status))
      = some "approved" ∧
    (auditAndDistributeRewards c4State [1, 2] false 0).2 = true ∧
    (((auditAndDistributeRewards c4State [1, 2] false 0).1.pendingRewards.find?
        (fun r => r.id == 2)).map (fun r => r.status)) = some "rejected" := by
  decide

/-! ## Projection lemmas for the settlement stages -/

@[simp] lemma createOrder_snd (st : State) (now : Nat) (ono : String)
    (uid mid pid : Nat) (t o pd : ℚ) (m : Bool) :
    (createOrder st now ono uid mid pid t o pd m).2 = st.nextOrderId := rfl

@[simp] lemma createOrder_orders (st : State) (now : Nat) (ono : String)
    (uid mid pid : Nat) (t o pd : ℚ) (m : Bool) :
    (createOrder st now ono uid mid pid t o pd m).1.orders =
      st.orders ++ [⟨st.nextOrderId, ono, uid, mid, t, o, pd, m, "completed", none, now⟩] := rfl

@[simp] lemma createOrder_users (st : State) (now : Nat) (ono : String)
    (uid mid pid : Nat) (t o pd : ℚ) (m : Bool) :
    (createOrder st now ono uid mid pid t o pd m).1.users = st.users := rfl

@[simp] lemma createOrder_accounts (st : State) (now : Nat) (ono : String)
    (uid mid pid : Nat) (t o pd : ℚ) (m : Bool) :
    (createOrder st now ono uid mid pid t o pd m).1.accounts = st.accounts := rfl

@[simp] lemma createOrder_pendingRewards (st : State) (now : Nat) (ono : String)
    (uid mid pid : Nat) (t o pd : ℚ) (m : Bool) :
    (createOrder st now ono uid mid pid t o pd m).1.pendingRewards = st.pendingRewards := rfl

@[simp] lemma createOrder_referrals (st : State) (now : Nat) (ono : String)
    (uid mid pid : Nat) (t o pd : ℚ) (m : Bool) :
    (createOrder st now ono uid mid pid t o pd m).1.referrals = st.referrals := rfl

@[simp] lemma createOrder_userIds (st : State) (now : Nat) (ono : String)
    (uid mid pid : Nat) (t o pd : ℚ) (m : Bool) :
    (createOrder st now ono uid mid pid t o pd m).1.userIds = st.userIds := rfl

@[simp] lemma Accounts.add_pw (a : Accounts) (x : ℚ) :
    a.add .public_welfare x = { a with public_welfare := a.public_welfare + x } := rfl

@[simp] lemma Accounts.add_pl (a : Accounts) (x : ℚ) :
    a.add .platform x = { a with platform := a.platform + x } := rfl

@[simp] lemma Accounts.add_sp (a : Accounts) (x : ℚ) :
    a.add .subsidy_pool x = { a with subsidy_pool := a.subsidy_pool + x } := rfl

@[simp] lemma Accounts.add_hd (a : Accounts) (x : ℚ) :
    a.add .honor_director x = { a with honor_director := a.honor_director + x } := rfl

@[simp] lemma Accounts.add_cm (a : Accounts) (x : ℚ) :
    a.add .community x = { a with community := a.community + x } := rfl

@[simp] lemma Accounts.add_cc (a : Accounts) (x : ℚ) :
    a.add .city_center x = { a with city_center := a.city_center + x } := rfl

@[simp] lemma Accounts.add_rc (a : Accounts) (x : ℚ) :
    a.add .region_company x = { a with region_company := a.region_company + x } := rfl

@[simp] lemma Accounts.add_dv (a : Accounts) (x : ℚ) :
    a.add .development x = { a with development := a.development + x } := rfl

@[simp] lemma Accounts.add_prp (a : Accounts) (x : ℚ) :
    a.add .platform_revenue_pool x =
      { a with platform_revenue_pool := a.platform_revenue_pool + x } := rfl

@[simp] lemma Accounts.add_cp (a : Accounts) (x : ℚ) :
    a.add .company_points x = { a with company_points := a.company_points + x } := rfl

@[simp] lemma Accounts.add_cb (a : Accounts) (x : ℚ) :
    a.add .company_balance x = { a with company_balance := a.company_balance + x } := rfl

lemma allocStep_accounts (A : ℚ) (s : State) (pp : AccountKey × ℚ) :
    (allocStep A s pp).accounts =
      if pp.1 = AccountKey.platform_revenue_pool then s.accounts
      else s.accounts.add pp.1 (A * pp.2) := by
  by_cases h : pp.1 = AccountKey.platform_revenue_pool
  · simp [allocStep, h]
  · by_cases h2 : pp.1 = AccountKey.public_welfare <;> simp [allocStep, h, h2]

lemma allocStep_users (A : ℚ) (s : State) (pp : AccountKey × ℚ) :
    (allocStep A s pp).users = s.users := by
  by_cases h : pp.1 = AccountKey.platform_revenue_pool
  · simp [allocStep, h]
  · by_cases h2 : pp.1 = AccountKey.public_welfare <;> simp [allocStep, h, h2]

lemma allocStep_orders (A : ℚ) (s : State) (pp : AccountKey × ℚ) :
    (allocStep A s pp).orders = s.orders := by
  by_cases h : pp.1 = AccountKey.platform_revenue_pool
  · simp [allocStep, h]
  · by_cases h2 : pp.1 = AccountKey.public_welfare <;> simp [allocStep, h, h2]

lemma allocStep_pendingRewards (A : ℚ) (s : State) (pp : AccountKey × ℚ) :
    (allocStep A s pp).pendingRewards = s.pendingRewards := by
  by_cases h : pp.1 = AccountKey.platform_revenue_pool
  · simp [allocStep, h]
  · by_cases h2 : pp.1 = AccountKey.public_welfare <;> simp [allocStep, h, h2]

lemma allocStep_referrals (A : ℚ) (s : State) (pp : AccountKey × ℚ) :
    (allocStep A s pp).referrals = s.referrals := by
  by_cases h : pp.1 = AccountKey.platform_revenue_pool
  · simp [allocStep, h]
  · by_cases h2 : pp.1 = AccountKey.public_welfare <;> simp [allocStep, h, h2]

lemma allocStep_userIds (A : ℚ) (s : State) (pp : AccountKey × ℚ) :
    (allocStep A s pp).userIds = s.userIds := by
  by_cases h : pp.1 = AccountKey.platform_revenue_pool
  · simp [allocStep, h]
  · by_cases h2 : pp.1 = AccountKey.public_welfare <;> simp [allocStep, h, h2]

lemma allocate_accounts (st : State) (A : ℚ) :
    (allocateFundsToPools st A).accounts =
      { st.accounts with
          platform_revenue_pool := st.accounts.platform_revenue_pool + A * (80/100)
          public_welfare := st.accounts.public_welfare + A * (1/100)
          platform := st.accounts.platform + A * (1/100)
          subsidy_pool := st.accounts.subsidy_pool + A * (12/100)
          honor_director := st.accounts.honor_director + A * (2/100)
          community := st.accounts.community + A * (1/100)
          city_center := st.accounts.city_center + A * (1/100)
          region_company := st.accounts.region_company + A * (5/1000)
          development := st.accounts.development + A * (15/1000) } := by
  unfold allocateFundsToPools ALLOCATIONS
  simp only [List.foldl_cons, List.foldl_nil, allocStep_accounts]
  simp

@[simp] lemma allocate_users (st : State) (A : ℚ) :
    (allocateFundsToPools st A).users = st.users := by
  unfold allocateFundsToPools ALLOCATIONS
  simp only [List.foldl_cons, List.foldl_nil, allocStep_users]

@[simp] lemma allocate_orders (st : State) (A : ℚ) :
    (allocateFundsToPools st A).orders = st.orders := by
  unfold allocateFundsToPools ALLOCATIONS
  simp only [List.foldl_cons, List.foldl_nil, allocStep_orders]

@[simp] lemma allocate_pendingRewards (st : State) (A : ℚ) :
    (allocateFundsToPools st A).pendingRewards = st.pendingRewards := by
  unfold allocateFundsToPools ALLOCATIONS
  simp only [List.foldl_cons, List.foldl_nil, allocStep_pendingRewards]

@[simp] lemma allocate_referrals (st : State) (A : ℚ) :
    (allocateFundsToPools st A).referrals = st.referrals := by
  unfold allocateFundsToPools ALLOCATIONS
  simp only [List.foldl_cons, List.foldl_nil, allocStep_referrals]

@[simp] lemma allocate_userIds (st : State) (A : ℚ) :
    (allocateFundsToPools st A).userIds = st.userIds := by
  unfold allocateFundsToPools ALLOCATIONS
  simp only [List.foldl_cons, List.foldl_nil, allocStep_userIds]

/-! ## Decomposition of successful settlements -/

lemma settleOrder_ok_member
    (st : State) (now : Nat) (ono : String) (uid pid q pts : Nat)
    (p : Product) (st1 : State) (oid : Nat)
    (hp : st.findProduct pid = some p) (hm : p.isMemberProduct = true)
    (h : settleOrder st now ono uid pid q pts = .ok (st1, oid)) :
    ∃ user, st.findUser uid = some user ∧ oid = st.nextOrderId ∧
      processMemberOrder
        (createOrder st now ono uid p.merchantId pid (p.price * (q : ℚ))
          (p.price * (q : ℚ)) 0 true).1
        st.nextOrderId uid user p.price q = .ok st1 := by
  unfold settleOrder at h
  rw [hp] at h
  dsimp only at h
  split at h
  · simp at h
  · split at h
    · simp at h
    · cases hu : st.findUser uid with
      | none => rw [hu] at h; simp at h
      | some user =>
        rw [hu] at h
        dsimp only at h
        rw [hm] at h
        rw [if_neg (by simp)] at h
        dsimp only at h
        simp only [createOrder_snd] at h
        cases hres : processMemberOrder
            (createOrder st now ono uid p.merchantId pid (p.price * (q : ℚ))
              (p.price * (q : ℚ)) 0 true).1
            st.nextOrderId uid user p.price q with
        | error e => rw [hres] at h; simp at h
        | ok st3 =>
            rw [hres] at h
            simp only [Except.ok.injEq, Prod.mk.injEq] at h
            exact ⟨user, rfl, h.2.symm, by rw [hres, h.1]⟩

lemma settleOrder_ok_normal
    (st : State) (now : Nat) (ono : String) (uid pid q pts : Nat)
    (p : Product) (st1 : State) (oid : Nat)
    (hp : st.findProduct pid = some p) (hm : p.isMemberProduct = false)
    (h : settleOrder st now ono uid pid q pts = .ok (st1, oid)) :
    ∃ user stD pd, st.findUser uid = some user ∧
      ((¬ 0 < pts) ∧ stD = st ∧ pd = 0 ∨
        (0 < pts) ∧ applyPointsDiscount st uid user pts (p.price * (q : ℚ)) = .ok stD ∧
          pd = (pts : ℚ) * POINTS_DISCOUNT_RATE) ∧
      oid = stD.nextOrderId ∧
      st1 = processNormalOrder
        (createOrder stD now ono uid p.merchantId pid (p.price * (q : ℚ) - pd)
          (p.price * (q : ℚ)) pd false).1
        stD.nextOrderId uid p.merchantId (p.price * (q : ℚ) - pd) user.memberLevel := by
  unfold settleOrder at h
  rw [hp] at h
  dsimp only at h
  split at h
  · simp at h
  · split at h
    · simp at h
    · cases hu : st.findUser uid with
      | none => rw [hu] at h; simp at h
      | some user =>
        rw [hu] at h
        dsimp only at h
        rw [hm] at h
        by_cases hpts : 0 < pts
        · rw [if_pos (by simp [hpts])] at h
          cases hd : applyPointsDiscount st uid user pts (p.price * (q : ℚ)) with
          | error e => rw [hd] at h; simp at h
          | ok stD =>
            rw [hd] at h
            dsimp only at h
            rw [if_neg (by simp)] at h
            simp only [createOrder_snd, Except.ok.injEq, Prod.mk.injEq] at h
            exact ⟨user, stD, (pts : ℚ) * POINTS_DISCOUNT_RATE, rfl,
              .inr ⟨hpts, hd, rfl⟩, h.2.symm, h.1.symm⟩
        · rw [if_neg (by simp [hpts])] at h
          dsimp only at h
          rw [if_neg (by simp)] at h
          simp only [createOrder_snd, Except.ok.injEq, Prod.mk.injEq] at h
          refine ⟨user, st, 0, rfl, .inl ⟨hpts, rfl, rfl⟩, h.2.symm, ?_⟩
          rw [sub_zero]
          exact h.1.symm

lemma createPendingRewards_ok_frame (s : State) (oid buyer old lvl : Nat) (s1 : State)
    (h : createPendingRewards s oid buyer old lvl = .ok s1) :
    s1.users = s.users ∧ s1.accounts = s.accounts ∧ s1.orders = s.orders ∧
    s1.referrals = s.referrals ∧ s1.userIds = s.userIds := by
  unfold createPendingRewards at h
  dsimp only at h
  repeat' split at h
  all_goals
    first
      | (obtain rfl : _ = s1 := Except.ok.inj h; simp)
      | (obtain rfl : _ = s1 := h; simp)
      | simp at h

lemma processMemberOrder_ok_parts (s : State) (oid uid : Nat) (user : User)
    (P : ℚ) (q : Nat) (s1 : State)
    (h : processMemberOrder s oid uid user P q = .ok s1) :
    ∃ s2, createPendingRewards (memberOrderPreRewards s oid uid user P q) oid uid
        user.memberLevel (min (user.memberLevel + q) 6) = .ok s2 ∧
      s1 = { s2 with accounts :=
        s2.accounts.add .company_points ((pyInt (P * (q : ℚ) * (20/100))) : ℚ) } := by
  unfold processMemberOrder at h
  dsimp only at h
  cases hc : createPendingRewards (memberOrderPreRewards s oid uid user P q) oid uid
      user.memberLevel (min (user.memberLevel + q) 6) with
  | error e => rw [hc] at h; simp at h
  | ok s2 =>
      rw [hc] at h
      dsimp only at h
      exact ⟨s2, rfl, (Except.ok.inj h).symm⟩

lemma mpre_orders (s : State) (oid uid : Nat) (user : User) (P : ℚ) (q : Nat) :
    (memberOrderPreRewards s oid uid user P q).orders = s.orders := by
  simp [memberOrderPreRewards]

lemma mpre_pendingRewards (s : State) (oid uid : Nat) (user : User) (P : ℚ) (q : Nat) :
    (memberOrderPreRewards s oid uid user P q).pendingRewards = s.pendingRewards := by
  simp [memberOrderPreRewards]

lemma mpre_referrals (s : State) (oid uid : Nat) (user : User) (P : ℚ) (q : Nat) :
    (memberOrderPreRewards s oid uid user P q).referrals = s.referrals := by
  simp [memberOrderPreRewards]

lemma mpre_userIds (s : State) (oid uid : Nat) (user : User) (P : ℚ) (q : Nat) :
    (memberOrderPreRewards s oid uid user P q).userIds = s.userIds := by
  simp [memberOrderPreRewards]

lemma mpre_accounts (s : State) (oid uid : Nat) (user : User) (P : ℚ) (q : Nat) :
    (memberOrderPreRewards s oid uid user P q).accounts =
      (allocateFundsToPools s (P * (q : ℚ))).accounts := by
  simp [memberOrderPreRewards]

lemma mpre_users_ne (s : State) (oid uid : Nat) (user : User) (P : ℚ) (q : Nat)
    (v : Nat) (hv : v ≠ uid) :
    (memberOrderPreRewards s oid uid user P q).users v = s.users v := by
  simp [memberOrderPreRewards, hv]

lemma mpre_users_self (s : State) (oid uid : Nat) (user : User) (P : ℚ) (q : Nat) :
    (memberOrderPreRewards s oid uid user P q).users uid =
      { s.users uid with
          memberLevel := min (user.memberLevel + q) 6
          points := (s.users uid).points + pyInt (P * (q : ℚ)) } := by
  simp [memberOrderPreRewards]

/-! ## C10: a member product settlement silently ignores the points
argument -/

/-- C10: for a member product, settle_order with any positive points_to_use
behaves exactly as with points_to_use 0: no discount is applied, no points
are redeemed, no error is raised for the argument, and the created order
carries points_discount 0 and a total equal to the original amount. -/
theorem member_settlement_ignores_points_argument
    (st : State) (now : Nat) (ono : String) (uid pid q pts : Nat) (p : Product)
    (hp : st.findProduct pid = some p) (hm : p.isMemberProduct = true) :
    settleOrder st now ono uid pid q pts = settleOrder st now ono uid pid q 0 ∧
    (∀ st1 oid, settleOrder st now ono uid pid q pts = .ok (st1, oid) →
      ∃ o ∈ st1.orders, o.id = oid ∧ o.pointsDiscount = 0 ∧
        o.totalAmount = o.originalAmount) := by
  constructor
  · simp [settleOrder, hp, hm]
  · intro st1 oid h
    obtain ⟨user, hu, hoid, hres⟩ := settleOrder_ok_member st now ono uid pid q pts p st1 oid hp hm h
    obtain ⟨s2, hc, hs1⟩ := processMemberOrder_ok_parts _ _ _ _ _ _ _ hres
    obtain ⟨-, -, hord, -, -⟩ := createPendingRewards_ok_frame _ _ _ _ _ _ hc
    refine ⟨⟨st.nextOrderId, ono, uid, p.merchantId, p.price * (q : ℚ),
      p.price * (q : ℚ), 0, true, "completed", none, now⟩, ?_, hoid.symm, rfl, rfl⟩
    rw [hs1]
    dsimp only
    rw [hord, mpre_orders]
    simp

def c10State : State :=
  mkState [1] (fun _ => defaultUser) (fun _ => none) [⟨1, 10, true, 0, 1⟩] zeroAccounts

/-- witness for C10 at a concrete input -/
theorem member_settlement_ignores_points_argument_witness :
    settleOrder c10State 0 "o1" 1 1 1 5 = settleOrder c10State 0 "o1" 1 1 1 0 ∧
    (∀ st1 oid, settleOrder c10State 0 "o1" 1 1 1 5 = .ok (st1, oid) →
      ∃ o ∈ st1.orders, o.id = oid ∧ o.pointsDiscount = 0 ∧
        o.totalAmount = o.originalAmount) :=
  member_settlement_ignores_points_argument c10State 0 "o1" 1 1 1 5
    ⟨1, 10, true, 0, 1⟩ (by decide) rfl

lemma normalAllocStep_accounts (F : ℚ) (u : Nat) (s : State) (pp : AccountKey × ℚ) :
    (normalAllocStep F u s pp).accounts = s.accounts.add pp.1 (F * pp.2) := by
  by_cases h : pp.1 = AccountKey.public_welfare <;> simp [normalAllocStep, h]

lemma normalAllocStep_users (F : ℚ) (u : Nat) (s : State) (pp : AccountKey × ℚ) :
    (normalAllocStep F u s pp).users = s.users := by
  by_cases h : pp.1 = AccountKey.public_welfare <;> simp [normalAllocStep, h]

lemma normalAllocStep_orders (F : ℚ) (u : Nat) (s : State) (pp : AccountKey × ℚ) :
    (normalAllocStep F u s pp).orders = s.orders := by
  by_cases h : pp.1 = AccountKey.public_welfare <;> simp [normalAllocStep, h]

lemma normalAllocStep_pendingRewards (F : ℚ) (u : Nat) (s : State) (pp : AccountKey × ℚ) :
    (normalAllocStep F u s pp).pendingRewards = s.pendingRewards := by
  by_cases h : pp.1 = AccountKey.public_welfare <;> simp [normalAllocStep, h]

lemma processNormalOrder_monetary (s : State) (oid uid mid : Nat) (F : ℚ) (lvl : Nat) :
    monetaryCredit s (processNormalOrder s oid uid mid F lvl) mid = F := by
  unfold processNormalOrder ALLOCATIONS
  dsimp only
  simp only [List.foldl_cons, List.foldl_nil]
  split_ifs <;>
    by_cases huid : uid = mid <;>
      simp [huid, eq_comm, monetaryCredit, allocPoolsDelta, normalAllocStep_accounts,
        normalAllocStep_users, normalAllocStep_orders, normalAllocStep_pendingRewards,
        State.updateUser, State.recordFlow, Accounts.add] <;>
      try ring

lemma processNormalOrder_orders (s : State) (oid uid mid : Nat) (F : ℚ) (lvl : Nat) :
    (processNormalOrder s oid uid mid F lvl).orders = s.orders := by
  unfold processNormalOrder ALLOCATIONS
  dsimp only
  simp only [List.foldl_cons, List.foldl_nil]
  split_ifs <;>
    simp [normalAllocStep_orders, State.updateUser, State.recordFlow]

lemma processNormalOrder_pendingRewards (s : State) (oid uid mid : Nat) (F : ℚ) (lvl : Nat) :
    (processNormalOrder s oid uid mid F lvl).pendingRewards = s.pendingRewards := by
  unfold processNormalOrder ALLOCATIONS
  dsimp only
  simp only [List.foldl_cons, List.foldl_nil]
  split_ifs <;>
    simp [normalAllocStep_pendingRewards, State.updateUser, State.recordFlow]

lemma processNormalOrder_company_points (s : State) (oid uid mid : Nat) (F : ℚ) (lvl : Nat) :
    (processNormalOrder s oid uid mid F lvl).accounts.company_points =
      s.accounts.company_points := by
  unfold processNormalOrder ALLOCATIONS
  dsimp only
  simp only [List.foldl_cons, List.foldl_nil]
  split_ifs <;>
    simp [normalAllocStep_accounts, State.updateUser, State.recordFlow, Accounts.add]

lemma processNormalOrder_points (s : State) (oid uid mid : Nat) (F : ℚ) (lvl : Nat) :
    ((processNormalOrder s oid uid mid F lvl).users uid).points =
      (s.users uid).points + (if 1 ≤ lvl then pyInt F else 0) := by
  unfold processNormalOrder ALLOCATIONS
  dsimp only
  simp only [List.foldl_cons, List.foldl_nil]
  split_ifs <;>
    by_cases huid : uid = mid <;>
      simp [huid, eq_comm, normalAllocStep_users, State.updateUser, State.recordFlow] <;>
      try ring

lemma mpre_users_merchantBalance (s : State) (oid uid : Nat) (user : User)
    (P : ℚ) (q : Nat) (v : Nat) :
    ((memberOrderPreRewards s oid uid user P q).users v).merchantBalance =
      (s.users v).merchantBalance := by
  by_cases hv : v = uid
  · subst hv; rw [mpre_users_self]
  · rw [mpre_users_ne _ _ _ _ _ _ _ hv]

lemma applyPointsDiscount_ok_eq (st : State) (uid : Nat) (user : User)
    (pts : Nat) (amt : ℚ) (st1 : State)
    (h : applyPointsDiscount st uid user pts amt = .ok st1) :
    (pts : ℤ) ≤ user.points ∧ (pts : ℚ) ≤ amt * (1/2) ∧
    st1 = { st.updateUser uid (fun u => { u with points := u.points - (pts : ℤ) }) with
            accounts := st.accounts.add .company_points (pts : ℚ) } := by
  unfold applyPointsDiscount at h
  dsimp only at h
  split at h
  · simp at h
  · split at h
    · simp at h
    · rename_i h1 h2
      exact ⟨le_of_not_lt h1, le_of_not_lt h2, (Except.ok.inj h).symm⟩

lemma monetaryCredit_trans (s1 s2 s3 : State) (mid : Nat) :
    monetaryCredit s1 s3 mid = monetaryCredit s1 s2 mid + monetaryCredit s2 s3 mid := by
  unfold monetaryCredit allocPoolsDelta
  ring

lemma monetaryCredit_refl (s : State) (mid : Nat) : monetaryCredit s s mid = 0 := by
  unfold monetaryCredit allocPoolsDelta
  ring

lemma applyPointsDiscount_monetary (st : State) (uid : Nat) (user : User)
    (pts : Nat) (amt : ℚ) (st1 : State) (mid : Nat)
    (h : applyPointsDiscount st uid user pts amt = .ok st1) :
    monetaryCredit st st1 mid = 0 := by
  obtain ⟨-, -, rfl⟩ := applyPointsDiscount_ok_eq st uid user pts amt st1 h
  unfold monetaryCredit allocPoolsDelta
  by_cases hv : mid = uid <;>
    simp [Accounts.add, State.updateUser, hv] <;> ring

lemma createOrder_monetary (st : State) (now : Nat) (ono : String)
    (uid mid2 pid : Nat) (t o pd : ℚ) (m : Bool) (mid : Nat) :
    monetaryCredit st (createOrder st now ono uid mid2 pid t o pd m).1 mid = 0 := by
  unfold monetaryCredit allocPoolsDelta
  simp

/-! ## C1: settlements conserve money -/

/-- C1: for every successful settlement (member or normal product), the
sum of the monetary credits it makes — the platform revenue or merchant
80 percent share plus every allocation table pool credit — equals exactly
the paid, post-discount amount of the created order. -/
theorem settlement_conserves_money
    (st : State) (now : Nat) (ono : String) (uid pid q pts : Nat)
    (st1 : State) (oid : Nat)
    (h : settleOrder st now ono uid pid q pts = .ok (st1, oid)) :
    ∃ o ∈ st1.orders, o.id = oid ∧ o.orderNo = ono ∧
      monetaryCredit st st1 o.merchantId = o.totalAmount := by
  cases hp : st.findProduct pid with
  | none =>
      exfalso
      unfold settleOrder at h
      rw [hp] at h
      exact absurd h (by simp)
  | some p =>
    cases hm : p.isMemberProduct with
    | true =>
      obtain ⟨user, hu, hoid, hres⟩ :=
        settleOrder_ok_member st now ono uid pid q pts p st1 oid hp hm h
      obtain ⟨s2, hc, hs1⟩ := processMemberOrder_ok_parts _ _ _ _ _ _ _ hres
      obtain ⟨huser, hacc, hord, -, -⟩ := createPendingRewards_ok_frame _ _ _ _ _ _ hc
      refine ⟨⟨st.nextOrderId, ono, uid, p.merchantId, p.price * (q : ℚ),
        p.price * (q : ℚ), 0, true, "completed", none, now⟩, ?_, hoid.symm, rfl, ?_⟩
      · rw [hs1]
        dsimp only
        rw [hord, mpre_orders]
        simp
      · rw [hs1]
        unfold monetaryCredit allocPoolsDelta
        dsimp only
        simp [Accounts.add, hacc, huser, mpre_accounts, allocate_accounts,
          mpre_users_merchantBalance]
        ring
    | false =>
      obtain ⟨user, stD, pd, hu, hdisc, hoid, hs1⟩ :=
        settleOrder_ok_normal st now ono uid pid q pts p st1 oid hp hm h
      refine ⟨⟨stD.nextOrderId, ono, uid, p.merchantId, p.price * (q : ℚ) - pd,
        p.price * (q : ℚ), pd, false, "completed", none, now⟩, ?_, hoid.symm, rfl, ?_⟩
      · rw [hs1, processNormalOrder_orders]
        simp
      · have e1 := monetaryCredit_trans st stD st1 p.merchantId
        have e2 := monetaryCredit_trans stD
          (createOrder stD now ono uid p.merchantId pid (p.price * (q : ℚ) - pd)
            (p.price * (q : ℚ)) pd false).1 st1 p.merchantId
        have h1 : monetaryCredit st stD p.merchantId = 0 := by
          rcases hdisc with ⟨-, rfl, -⟩ | ⟨-, hap, -⟩
          · exact monetaryCredit_refl _ _
          · exact applyPointsDiscount_monetary st uid user pts (p.price * (q : ℚ))
              stD p.merchantId hap
        have h3 : monetaryCredit
            (createOrder stD now ono uid p.merchantId pid (p.price * (q : ℚ) - pd)
              (p.price * (q : ℚ)) pd false).1 st1 p.merchantId =
            p.price * (q : ℚ) - pd := by
          rw [hs1]
          exact processNormalOrder_monetary _ _ _ _ _ _
        rw [e1, e2, h1, h3, createOrder_monetary]
        ring

def c1State : State :=
  mkState [1, 2] (fun _ => defaultUser) (fun _ => none) [⟨1, 10, false, 2, 1⟩] zeroAccounts

def c1Settled : State :=
  match settleOrder c1State 0 "n1" 1 1 1 0 with
  | .ok r => r.1
  | .error _ => c1State

/-- witness for C1 at a concrete input (a normal product sold by merchant 2) -/
theorem settlement_conserves_money_witness :
    ∃ o ∈ c1Settled.orders, o.id = 1 ∧ o.orderNo = "n1" ∧
      monetaryCredit c1State c1Settled o.merchantId = o.totalAmount :=
  settlement_conserves_money c1State 0 "n1" 1 1 1 0 c1Settled 1 (by rfl)

lemma findUser_eq (st : State) (uid : Nat) (user : User)
    (h : st.findUser uid = some user) : st.users uid = user ∧ uid ∈ st.userIds := by
  unfold State.findUser at h
  split at h
  · exact ⟨Option.some.inj h, by assumption⟩
  · simp at h

lemma settleOrder_normal_eval
    (st : State) (now : Nat) (ono : String) (uid pid q pts : Nat)
    (p : Product) (user : User)
    (hp : st.findProduct pid = some p) (hm : p.isMemberProduct = false)
    (hmerch : ¬(p.merchantId ≠ PLATFORM_MERCHANT_ID ∧ st.findUser p.merchantId = none))
    (hu : st.findUser uid = some user) (hpts : 0 < pts) :
    settleOrder st now ono uid pid q pts =
      match applyPointsDiscount st uid user pts (p.price * (q : ℚ)) with
      | .error e => .error e
      | .ok stD =>
          .ok (processNormalOrder
            (createOrder stD now ono uid p.merchantId pid
              (p.price * (q : ℚ) - (pts : ℚ) * POINTS_DISCOUNT_RATE)
              (p.price * (q : ℚ)) ((pts : ℚ) * POINTS_DISCOUNT_RATE) false).1
            stD.nextOrderId uid p.merchantId
            (p.price * (q : ℚ) - (pts : ℚ) * POINTS_DISCOUNT_RATE) user.memberLevel,
            stD.nextOrderId) := by
  unfold settleOrder
  rw [hp]
  dsimp only
  rw [if_neg hmerch]
  rw [if_neg (by simp [hm])]
  rw [hu]
  dsimp only
  rw [hm]
  rw [if_pos (by simp [hpts])]
  cases hd : applyPointsDiscount st uid user pts (p.price * (q : ℚ)) with
  | error e => rfl
  | ok stD =>
      dsimp only
      rw [if_neg (by simp)]
      rw [createOrder_snd]

lemma applyPointsDiscount_eval_ok (st : State) (uid : Nat) (user : User)
    (pts : Nat) (amt : ℚ)
    (h1 : ¬ user.points < (pts : ℤ)) (h2 : ¬ ((pts : ℚ) > amt * (1/2))) :
    applyPointsDiscount st uid user pts amt =
      .ok { st.updateUser uid (fun u => { u with points := u.points - (pts : ℤ) }) with
            accounts := st.accounts.add .company_points (pts : ℚ) } := by
  unfold applyPointsDiscount
  dsimp only
  rw [if_neg h1, if_neg h2]
  rfl

/-! ## C6: point redemption checks and effects on non-member settlements -/

/-- C6: for a non-member settlement redeeming a positive number of points,
the settlement fails when the user holds fewer points than requested, and
when the monetary value of the points is above half the pre-discount
amount; on success the payable amount is the pre-discount amount minus
the monetary value of the points, the redeemed points are debited from
the user (separately from the later purchase point accrual), and an equal
point amount is credited to the company points pool. -/
theorem points_redemption_checks_and_effects
    (st : State) (now : Nat) (ono : String) (uid pid q pts : Nat)
    (p : Product) (user : User)
    (hp : st.findProduct pid = some p) (hm : p.isMemberProduct = false)
    (hmerch : ¬(p.merchantId ≠ PLATFORM_MERCHANT_ID ∧ st.findUser p.merchantId = none))
    (hu : st.findUser uid = some user) (hpts : 0 < pts) :
    (user.points < (pts : ℤ) → ∃ e, settleOrder st now ono uid pid q pts = .error e) ∧
    ((pts : ℤ) ≤ user.points → p.price * (q : ℚ) * (1/2) < (pts : ℚ) →
      ∃ e, settleOrder st now ono uid pid q pts = .error e) ∧
    ((pts : ℤ) ≤ user.points → (pts : ℚ) ≤ p.price * (q : ℚ) * (1/2) →
      ∃ st1 oid, settleOrder st now ono uid pid q pts = .ok (st1, oid) ∧
        (∃ o ∈ st1.orders, o.id = oid ∧
          o.totalAmount = p.price * (q : ℚ) - (pts : ℚ) * POINTS_DISCOUNT_RATE) ∧
        st1.accounts.company_points = st.accounts.company_points + (pts : ℚ) ∧
        (st1.users uid).points = user.points - (pts : ℤ) +
          (if 1 ≤ user.memberLevel then
            pyInt (p.price * (q : ℚ) - (pts : ℚ) * POINTS_DISCOUNT_RATE) else 0)) := by
  refine ⟨?_, ?_, ?_⟩
  · intro hlt
    rw [settleOrder_normal_eval st now ono uid pid q pts p user hp hm hmerch hu hpts]
    unfold applyPointsDiscount
    rw [if_pos hlt]
    exact ⟨_, rfl⟩
  · intro h1 h2
    rw [settleOrder_normal_eval st now ono uid pid q pts p user hp hm hmerch hu hpts]
    unfold applyPointsDiscount
    rw [if_neg (not_lt.2 h1)]
    dsimp only
    rw [if_pos h2]
    exact ⟨_, rfl⟩
  · intro h1 h2
    rw [settleOrder_normal_eval st now ono uid pid q pts p user hp hm hmerch hu hpts]
    rw [applyPointsDiscount_eval_ok st uid user pts (p.price * (q : ℚ))
      (not_lt.2 h1) (not_lt.2 h2)]
    dsimp only
    refine ⟨_, _, rfl, ?_, ?_, ?_⟩
    · rw [processNormalOrder_orders, createOrder_orders]
      exact ⟨_, List.mem_append_right _ (List.mem_singleton_self _), rfl, rfl⟩
    · simp [processNormalOrder_company_points, Accounts.add]
    · rw [processNormalOrder_points]
      simp [State.updateUser, (findUser_eq st uid user hu).1]

def c6User : User := { defaultUser with points := 50 }

def c6P : Product := ⟨1, 100, false, 0, 1⟩

def c6State : State :=
  mkState [1] (fun _ => c6User) (fun _ => none) [c6P] zeroAccounts

/-- witness for C6 at a concrete input -/
theorem points_redemption_checks_and_effects_witness :
    (c6User.points < (30 : ℤ) →
      ∃ e, settleOrder c6State 0 "w6" 1 1 1 30 = .error e) ∧
    ((30 : ℤ) ≤ c6User.points → c6P.price * ((1 : Nat) : ℚ) * (1/2) < ((30 : Nat) : ℚ) →
      ∃ e, settleOrder c6State 0 "w6" 1 1 1 30 = .error e) ∧
    ((30 : ℤ) ≤ c6User.points → ((30 : Nat) : ℚ) ≤ c6P.price * ((1 : Nat) : ℚ) * (1/2) →
      ∃ st1 oid, settleOrder c6State 0 "w6" 1 1 1 30 = .ok (st1, oid) ∧
        (∃ o ∈ st1.orders, o.id = oid ∧
          o.totalAmount = c6P.price * ((1 : Nat) : ℚ) - ((30 : Nat) : ℚ) * POINTS_DISCOUNT_RATE) ∧
        st1.accounts.company_points = c6State.accounts.company_points + ((30 : Nat) : ℚ) ∧
        (st1.users 1).points = c6User.points - ((30 : Nat) : ℤ) +
          (if 1 ≤ c6User.memberLevel then
            pyInt (c6P.price * ((1 : Nat) : ℚ) - ((30 : Nat) : ℚ) * POINTS_DISCOUNT_RATE) else 0)) :=
  points_redemption_checks_and_effects c6State 0 "w6" 1 1 1 30 c6P c6User
    (by decide) rfl (by decide) (by decide) (by decide)

lemma chainWalkAux_congr (s1 s2 : State) (h : s1.referrals = s2.referrals) :
    ∀ (n : Nat) (u : Nat) (t : Option Nat),
      chainWalkAux s1 n u t = chainWalkAux s2 n u t := by
  intro n
  induction n with
  | zero => intro u t; rfl
  | succ m ih =>
      intro u t
      unfold chainWalkAux
      rw [h]
      cases s2.referrals u with
      | none => rfl
      | some r => exact ih r (some r)

@[simp] lemma insertPendingReward_findUser (st : State) (a : Nat) (b : String)
    (c : ℚ) (d : Nat) (e : Option Nat) :
    (insertPendingReward st a b c d e).findUser = st.findUser := rfl

@[simp] lemma insertPendingReward_nextRewardId (st : State) (a : Nat) (b : String)
    (c : ℚ) (d : Nat) (e : Option Nat) :
    (insertPendingReward st a b c d e).nextRewardId = st.nextRewardId + 1 := rfl

/-- the pending rewards appended by a successful _create_pending_rewards
call: a referral reward when the old level is 0 and a referrer exists, and
a team reward as decided by the chain walk and the target level check -/
lemma cpr_ok_shape (s : State) (oid buyer old lvl : Nat) (s1 : State)
    (h : createPendingRewards s oid buyer old lvl = .ok s1) :
    ∃ i j, s1.pendingRewards = s.pendingRewards ++
      (if old = 0 then
        match s.referrals buyer with
        | some r => [⟨i, r, "referral", MEMBER_PRODUCT_PRICE * (50/100), oid, none, "pending"⟩]
        | none => []
       else []) ++
      (if old = 0 ∧ lvl = 1 then []
       else
        match chainWalkAux s lvl buyer none with
        | none => []
        | some t =>
            if lvl ≤ (s.users t).memberLevel then
              [⟨j, t, "team", MEMBER_PRODUCT_PRICE * (50/100), oid, some lvl, "pending"⟩]
            else []) := by
  unfold createPendingRewards at h
  dsimp only at h
  by_cases h0 : old = 0
  · rw [if_pos h0] at h
    cases href : s.referrals buyer with
    | none =>
        rw [href] at h
        dsimp only at h
        by_cases h1 : lvl = 1
        · rw [if_pos ⟨h0, h1⟩] at h
          obtain rfl : _ = s1 := Except.ok.inj h
          exact ⟨0, 0, by simp [h0, h1, href]⟩
        · rw [if_neg (by simp [h1])] at h
          cases hwalk : chainWalkAux s lvl buyer none with
          | none =>
              rw [hwalk] at h
              dsimp only at h
              obtain rfl : _ = s1 := Except.ok.inj h
              exact ⟨0, 0, by simp [h0, h1, href, hwalk]⟩
          | some t =>
              rw [hwalk] at h
              dsimp only at h
              cases hfind : s.findUser t with
              | none => rw [hfind] at h; simp at h
              | some u =>
                  rw [hfind] at h
                  dsimp only at h
                  obtain ⟨hut, -⟩ := findUser_eq s t u hfind
                  by_cases hlev : lvl ≤ u.memberLevel
                  · rw [if_pos hlev] at h
                    obtain rfl : _ = s1 := Except.ok.inj h
                    exact ⟨0, s.nextRewardId,
                      by simp [h0, h1, href, hwalk, hut, hlev, insertPendingReward]⟩
                  · rw [if_neg hlev] at h
                    obtain rfl : _ = s1 := Except.ok.inj h
                    exact ⟨0, 0, by simp [h0, h1, href, hwalk, hut, hlev]⟩
    | some r =>
        rw [href] at h
        dsimp only at h
        by_cases h1 : lvl = 1
        · rw [if_pos ⟨h0, h1⟩] at h
          obtain rfl : _ = s1 := Except.ok.inj h
          exact ⟨s.nextRewardId, 0, by simp [h0, h1, href, insertPendingReward]⟩
        · rw [if_neg (by simp [h1])] at h
          rw [chainWalkAux_congr _ s (by rfl) lvl buyer none] at h
          cases hwalk : chainWalkAux s lvl buyer none with
          | none =>
              rw [hwalk] at h
              dsimp only at h
              obtain rfl : _ = s1 := Except.ok.inj h
              exact ⟨s.nextRewardId, 0, by simp [h0, h1, href, hwalk, insertPendingReward]⟩
          | some t =>
              rw [hwalk] at h
              dsimp only at h
              simp only [insertPendingReward_findUser] at h
              cases hfind : s.findUser t with
              | none => rw [hfind] at h; simp at h
              | some u =>
                  rw [hfind] at h
                  dsimp only at h
                  obtain ⟨hut, -⟩ := findUser_eq s t u hfind
                  by_cases hlev : lvl ≤ u.memberLevel
                  · rw [if_pos hlev] at h
                    obtain rfl : _ = s1 := Except.ok.inj h
                    exact ⟨s.nextRewardId, s.nextRewardId + 1,
                      by simp [h0, h1, href, hwalk, hut, hlev, insertPendingReward]⟩
                  · rw [if_neg hlev] at h
                    obtain rfl : _ = s1 := Except.ok.inj h
                    exact ⟨s.nextRewardId, 0,
                      by simp [h0, h1, href, hwalk, hut, hlev, insertPendingReward]⟩
  · rw [if_neg h0] at h
    rw [if_neg (by simp [h0])] at h
    cases hwalk : chainWalkAux s lvl buyer none with
    | none =>
        rw [hwalk] at h
        dsimp only at h
        obtain rfl : _ = s1 := Except.ok.inj h
        exact ⟨0, 0, by simp [h0, hwalk]⟩
    | some t =>
        rw [hwalk] at h
        dsimp only at h
        cases hfind : s.findUser t with
        | none => rw [hfind] at h; simp at h
        | some u =>
            rw [hfind] at h
            dsimp only at h
            obtain ⟨hut, -⟩ := findUser_eq s t u hfind
            by_cases hlev : lvl ≤ u.memberLevel
            · rw [if_pos hlev] at h
              obtain rfl : _ = s1 := Except.ok.inj h
              exact ⟨0, s.nextRewardId, by simp [h0, hwalk, hut, hlev, insertPendingReward]⟩
            · rw [if_neg hlev] at h
              obtain rfl : _ = s1 := Except.ok.inj h
              exact ⟨0, 0, by simp [h0, hwalk, hut, hlev]⟩

lemma newPendingRewards_append (s s1 : State) (l : List PendingReward)
    (hp2 : s1.pendingRewards = s.pendingRewards ++ l) : newPendingRewards s s1 = l := by
  unfold newPendingRewards
  rw [hp2]
  simp

/-! ## C7: the referral reward fires exactly on a first membership
purchase with a referrer, at half the fixed member product price -/

/-- C7: in a member product settlement, a referral type pending reward is
created if and only if the buyer's member level before the purchase was 0
and the buyer has a referrer; every referral reward created goes to that
referrer and is worth exactly half the fixed member product price,
regardless of the referrer's own level. -/
theorem referral_reward_iff
    (st : State) (now : Nat) (ono : String) (uid pid q pts : Nat)
    (p : Product) (user : User) (st1 : State) (oid : Nat)
    (hp : st.findProduct pid = some p) (hm : p.isMemberProduct = true)
    (hu : st.findUser uid = some user)
    (h : settleOrder st now ono uid pid q pts = .ok (st1, oid)) :
    ((∃ r ∈ newPendingRewards st st1, r.rewardType = "referral") ↔
      user.memberLevel = 0 ∧ (st.referrals uid).isSome = true) ∧
    (∀ r ∈ newPendingRewards st st1, r.rewardType = "referral" →
      st.referrals uid = some r.userId ∧ r.amount = MEMBER_PRODUCT_PRICE / 2 ∧
      r.orderId = oid ∧ r.status = "pending") := by
  obtain ⟨user', hu', hoid, hres⟩ :=
    settleOrder_ok_member st now ono uid pid q pts p st1 oid hp hm h
  obtain rfl : user = user' := Option.some.inj (hu.symm.trans hu')
  obtain ⟨s2, hc, hs1⟩ := processMemberOrder_ok_parts _ _ _ _ _ _ _ hres
  obtain ⟨i, j, hshape⟩ := cpr_ok_shape _ _ _ _ _ _ hc
  rw [mpre_pendingRewards, createOrder_pendingRewards, mpre_referrals,
    createOrder_referrals, List.append_assoc] at hshape
  have hpr : st1.pendingRewards = s2.pendingRewards := by rw [hs1]
  have hnew := newPendingRewards_append st st1 _ (hpr.trans hshape)
  rw [hnew]
  constructor
  · constructor
    · rintro ⟨r, hr, hrt⟩
      rw [List.mem_append] at hr
      rcases hr with hr | hr
      · by_cases h0 : user.memberLevel = 0
        · rw [if_pos h0] at hr
          cases href : st.referrals uid with
          | none => rw [href] at hr; simp at hr
          | some rr => exact ⟨h0, rfl⟩
        · rw [if_neg h0] at hr; simp at hr
      · exfalso
        revert hr
        split
        · simp
        · split
          · simp
          · split
            · intro hr
              simp only [List.mem_singleton] at hr
              rw [hr] at hrt
              simp at hrt
            · simp
    · rintro ⟨h0, hsome⟩
      cases href : st.referrals uid with
      | none => rw [href] at hsome; simp at hsome
      | some rr =>
          refine ⟨⟨i, rr, "referral", MEMBER_PRODUCT_PRICE * (50/100),
            st.nextOrderId, none, "pending"⟩, ?_, rfl⟩
          rw [List.mem_append]
          left
          rw [if_pos h0]
          simp
  · intro r hr hrt
    rw [List.mem_append] at hr
    rcases hr with hr | hr
    · by_cases h0 : user.memberLevel = 0
      · rw [if_pos h0] at hr
        cases href : st.referrals uid with
        | none => rw [href] at hr; simp at hr
        | some rr =>
            rw [href] at hr
            simp only [List.mem_singleton] at hr
            subst hr
            exact ⟨rfl, by ring, hoid.symm, rfl⟩
      · rw [if_neg h0] at hr; simp at hr
    · exfalso
      revert hr
      split
      · simp
      · split
        · simp
        · split
          · intro hr
            simp only [List.mem_singleton] at hr
            rw [hr] at hrt
            simp at hrt
          · simp

def c7Buyer : User := defaultUser

def c7Ref : User := { defaultUser with memberLevel := 3 }

def c7State : State :=
  mkState [1, 2] (fun i => if i = 2 then c7Ref else c7Buyer)
    (fun i => if i = 1 then some 2 else none) [⟨1, 1980, true, 0, 1⟩] zeroAccounts

def c7Settled : State :=
  match settleOrder c7State 0 "w7" 1 1 1 0 with
  | .ok r => r.1
  | .error _ => c7State

/-- witness for C7 at a concrete input -/
theorem referral_reward_iff_witness :
    ((∃ r ∈ newPendingRewards c7State c7Settled, r.rewardType = "referral") ↔
      c7Buyer.memberLevel = 0 ∧ (c7State.referrals 1).isSome = true) ∧
    (∀ r ∈ newPendingRewards c7State c7Settled, r.rewardType = "referral" →
      c7State.referrals 1 = some r.userId ∧ r.amount = MEMBER_PRODUCT_PRICE / 2 ∧
      r.orderId = 1 ∧ r.status = "pending") :=
  referral_reward_iff c7State 0 "w7" 1 1 1 0 ⟨1, 1980, true, 0, 1⟩ c7Buyer c7Settled 1
    (by decide) rfl (by decide) (by rfl)

/-- the node the chain walk stops at: the last referrer reached when
ascending at most n hops from u, none when u has no referrer -/
def lastReachable (s : State) : Nat → Nat → Option Nat
  | 0, _ => none
  | n + 1, u =>
    match s.referrals u with
    | none => none
    | some r =>
        match lastReachable s n r with
        | none => some r
        | some t => some t

lemma chainWalkAux_some_acc (s : State) :
    ∀ (n v a : Nat), chainWalkAux s n v (some a) =
      match lastReachable s n v with
      | none => some a
      | some t => some t := by
  intro n
  induction n with
  | zero => intro v a; rfl
  | succ m ih =>
      intro v a
      unfold chainWalkAux lastReachable
      cases hrv : s.referrals v with
      | none => rfl
      | some r =>
          dsimp only
          rw [ih r r]
          cases hlr : lastReachable s m r <;> simp [hlr]

lemma chainWalk_eq_lastReachable (s : State) (n u : Nat) :
    chainWalkAux s n u none = lastReachable s n u := by
  cases n with
  | zero => rfl
  | succ m =>
      unfold chainWalkAux lastReachable
      cases hru : s.referrals u with
      | none => rfl
      | some r =>
          dsimp only
          rw [chainWalkAux_some_acc]

lemma lastReachable_succ_none_iff (s : State) (n v : Nat) :
    lastReachable s (n + 1) v = none ↔ s.referrals v = none := by
  unfold lastReachable
  cases hrv : s.referrals v with
  | none => simp
  | some r =>
      cases hlr : lastReachable s n r <;> simp [hlr]

lemma lastReachable_some_iff (s : State) :
    ∀ (n u t : Nat), lastReachable s n u = some t ↔
      ∃ k, 1 ≤ k ∧ k ≤ n ∧ ancestorAt s k u = some t ∧
        (k = n ∨ s.referrals t = none) := by
  intro n
  induction n with
  | zero =>
      intro u t
      constructor
      · intro h
        exact absurd h (by simp [lastReachable])
      · rintro ⟨k, hk1, hk0, -⟩
        omega
  | succ m ih =>
      intro u t
      unfold lastReachable
      cases hru : s.referrals u with
      | none =>
          dsimp only
          constructor
          · intro h
            simp at h
          · rintro ⟨k, hk1, hkn, hanc, -⟩
            exfalso
            obtain ⟨k1, rfl⟩ : ∃ k1, k = k1 + 1 := ⟨k - 1, by omega⟩
            unfold ancestorAt at hanc
            rw [hru] at hanc
            simp at hanc
      | some r =>
          dsimp only
          cases hlr : lastReachable s m r with
          | none =>
              dsimp only
              constructor
              · intro h
                obtain rfl : r = t := Option.some.inj h
                refine ⟨1, le_refl 1, by omega, ?_, ?_⟩
                · unfold ancestorAt
                  rw [hru]
                  rfl
                · cases m with
                  | zero => exact .inl rfl
                  | succ m2 =>
                      exact .inr ((lastReachable_succ_none_iff s m2 r).mp hlr)
              · rintro ⟨k, hk1, hkn, hanc, hend⟩
                obtain ⟨k1, rfl⟩ : ∃ k1, k = k1 + 1 := ⟨k - 1, by omega⟩
                unfold ancestorAt at hanc
                rw [hru] at hanc
                cases k1 with
                | zero => exact hanc
                | succ k2 =>
                    exfalso
                    have hlr2 : lastReachable s m r = some t := by
                      refine (ih r t).mpr ⟨k2 + 1, by omega, by omega, hanc, ?_⟩
                      rcases hend with h1 | h2
                      · exact .inl (by omega)
                      · exact .inr h2
                    rw [hlr] at hlr2
                    simp at hlr2
          | some t2 =>
              dsimp only
              constructor
              · intro h
                have ht : t2 = t := Option.some.inj h
                obtain ⟨k, hk1, hkm, hanc, hend⟩ := (ih r t2).mp hlr
                rw [ht] at hanc hend
                refine ⟨k + 1, by omega, by omega, ?_, ?_⟩
                · unfold ancestorAt
                  rw [hru]
                  exact hanc
                · rcases hend with rfl | hnone
                  · exact .inl rfl
                  · exact .inr hnone
              · rintro ⟨k, hk1, hkn, hanc, hend⟩
                obtain ⟨k1, rfl⟩ : ∃ k1, k = k1 + 1 := ⟨k - 1, by omega⟩
                unfold ancestorAt at hanc
                rw [hru] at hanc
                cases k1 with
                | zero =>
                    obtain rfl : r = t := Option.some.inj hanc
                    rcases hend with h1 | hnone
                    · exfalso
                      have hm0 : m = 0 := by omega
                      rw [hm0] at hlr
                      simp [lastReachable] at hlr
                    · exfalso
                      cases m with
                      | zero => simp [lastReachable] at hlr
                      | succ m2 =>
                          rw [(lastReachable_succ_none_iff s m2 r).mpr hnone] at hlr
                          simp at hlr
                | succ k2 =>
                    have hlr2 : lastReachable s m r = some t := by
                      refine (ih r t).mpr ⟨k2 + 1, by omega, by omega, hanc, ?_⟩
                      rcases hend with h1 | h2
                      · exact .inl (by omega)
                      · exact .inr h2
                    rw [hlr] at hlr2
                    exact hlr2

lemma chainWalk_some_iff (s : State) (n u t : Nat) :
    chainWalkAux s n u none = some t ↔
      ∃ k, 1 ≤ k ∧ k ≤ n ∧ ancestorAt s k u = some t ∧
        (k = n ∨ s.referrals t = none) := by
  rw [chainWalk_eq_lastReachable]
  exact lastReachable_some_iff s n u t

/-! ## C2: which team reward a member settlement creates -/

/-- C2 (amended): in a member product settlement whose level transition is
not 0 to 1, with L the buyer's new level, a team type pending reward
tagged with layer L is created for t if and only if t is the node where
the chain walk stops — the ancestor exactly k hops up for some k between
1 and L that is either the full L hops or the chain's end — and t's
member level (read before the purchase, referral graph assumed acyclic
around the buyer) is at least L.  When the chain is shorter than L hops
the walk stops at the topmost ancestor, which can still earn the reward. -/
theorem team_reward_walk_characterization
    (st : State) (now : Nat) (ono : String) (uid pid q pts : Nat)
    (p : Product) (user : User) (st1 : State) (oid : Nat) (L : Nat)
    (hp : st.findProduct pid = some p) (hm : p.isMemberProduct = true)
    (hu : st.findUser uid = some user)
    (h : settleOrder st now ono uid pid q pts = .ok (st1, oid))
    (hL : L = min (user.memberLevel + q) 6)
    (hnot : ¬(user.memberLevel = 0 ∧ L = 1))
    (hacyc : ∀ k t, 1 ≤ k → k ≤ L → ancestorAt st k uid = some t → t ≠ uid) :
    ∀ t, (∃ r ∈ newPendingRewards st st1, r.rewardType = "team" ∧ r.userId = t ∧
            r.layer = some L)
      ↔ (∃ k, 1 ≤ k ∧ k ≤ L ∧ ancestorAt st k uid = some t ∧
           (k = L ∨ st.referrals t = none) ∧ L ≤ (st.users t).memberLevel) := by
  obtain ⟨user', hu', hoid, hres⟩ :=
    settleOrder_ok_member st now ono uid pid q pts p st1 oid hp hm h
  obtain rfl : user = user' := Option.some.inj (hu.symm.trans hu')
  obtain ⟨s2, hc, hs1⟩ := processMemberOrder_ok_parts _ _ _ _ _ _ _ hres
  obtain ⟨i, j, hshape⟩ := cpr_ok_shape _ _ _ _ _ _ hc
  subst hL
  have hw : chainWalkAux
      (memberOrderPreRewards
        (createOrder st now ono uid p.merchantId pid (p.price * (q : ℚ))
          (p.price * (q : ℚ)) 0 true).1 st.nextOrderId uid user p.price q)
      (min (user.memberLevel + q) 6) uid none =
      chainWalkAux st (min (user.memberLevel + q) 6) uid none :=
    chainWalkAux_congr _ _ (by rw [mpre_referrals, createOrder_referrals]) _ _ _
  rw [mpre_pendingRewards, createOrder_pendingRewards, mpre_referrals,
    createOrder_referrals, hw, List.append_assoc] at hshape
  have hpr : st1.pendingRewards = s2.pendingRewards := by rw [hs1]
  have hnew := newPendingRewards_append st st1 _ (hpr.trans hshape)
  rw [hnew]
  intro t
  constructor
  · rintro ⟨r, hr, hrt, hruid, hrl⟩
    rw [List.mem_append] at hr
    rcases hr with hr | hr
    · exfalso
      revert hr
      split
      · split
        · intro hr
          simp only [List.mem_singleton] at hr
          rw [hr] at hrt
          simp at hrt
        · simp
      · simp
    · revert hr
      split
      · simp
      · split
        · simp
        · rename_i hcond hwalkeq
          split
          · intro hr
            simp only [List.mem_singleton] at hr
            rw [hr] at hruid
            dsimp only at hruid
            subst hruid
            obtain ⟨k, hk1, hkL, hanc, hend⟩ :=
              (chainWalk_some_iff st (min (user.memberLevel + q) 6) uid _).mp hwalkeq
            have htne := hacyc k _ hk1 hkL hanc
            rename_i hlev
            rw [mpre_users_ne _ _ _ _ _ _ _ htne, createOrder_users] at hlev
            exact ⟨k, hk1, hkL, hanc, hend, hlev⟩
          · simp
  · rintro ⟨k, hk1, hkL, hanc, hend, hlev⟩
    have hwalk : chainWalkAux st (min (user.memberLevel + q) 6) uid none = some t :=
      (chainWalk_some_iff st _ uid t).mpr ⟨k, hk1, hkL, hanc, hend⟩
    have htne : t ≠ uid := hacyc k t hk1 hkL hanc
    refine ⟨⟨j, t, "team", MEMBER_PRODUCT_PRICE * (50/100), st.nextOrderId,
      some (min (user.memberLevel + q) 6), "pending"⟩, ?_, rfl, rfl, rfl⟩
    rw [List.mem_append]
    right
    rw [if_neg hnot, hwalk]
    dsimp only
    rw [mpre_users_ne _ _ _ _ _ _ _ htne, createOrder_users]
    rw [if_pos hlev]
    simp

def c2Buyer : User := { defaultUser with memberLevel := 1 }

def c2Up : User := { defaultUser with memberLevel := 5 }

def c2State : State :=
  mkState [1, 2] (fun i => if i = 2 then c2Up else c2Buyer)
    (fun i => if i = 1 then some 2 else none) [⟨1, 10, true, 0, 1⟩] zeroAccounts

def c2Settled : State :=
  match settleOrder c2State 0 "w2" 1 1 1 0 with
  | .ok r => r.1
  | .error _ => c2State

/-- C2 counterexample: buyer 1 at level 1 buys one member product, so the
target layer is 2, but the referral chain is only 1 hop long (no ancestor
exactly 2 hops up); the settlement still creates a team reward with layer
2 for the topmost ancestor, user 2 — refuting the claim that no team
reward is created when the chain is shorter than the target depth. -/
theorem team_reward_short_chain_counterexample :
    (∃ r ∈ newPendingRewards c2State c2Settled, r.rewardType = "team" ∧ r.userId = 2 ∧
      r.layer = some 2) ∧
    ancestorAt c2State 2 1 = none := by
  decide

/-- witness for the amended C2 theorem at a concrete input -/
theorem team_reward_walk_characterization_witness :
    (∃ r ∈ newPendingRewards c2State c2Settled, r.rewardType = "team" ∧
        r.userId = 2 ∧ r.layer = some 2)
      ↔ (∃ k, 1 ≤ k ∧ k ≤ 2 ∧ ancestorAt c2State k 1 = some 2 ∧
           (k = 2 ∨ c2State.referrals 2 = none) ∧ 2 ≤ (c2State.users 2).memberLevel) :=
  team_reward_walk_characterization c2State 0 "w2" 1 1 1 0 ⟨1, 10, true, 0, 1⟩
    c2Buyer c2Settled 1 2 (by decide) rfl (by decide) (by rfl) (by decide) (by decide)
    (by
      intro k t hk1 hkL hanc ht
      subst ht
      interval_cases k
      · rw [show ancestorAt c2State 1 1 = some 2 from by decide] at hanc
        simp at hanc
      · rw [show ancestorAt c2State 2 1 = none from by decide] at hanc
        simp at hanc)
    2

/-! ## C5: what a member refund does to the buyer level and balances -/

lemma csp_accounts (s : State) (u : Nat) (a : ℚ) :
    (condSubtractPromotion s u a).accounts = s.accounts := by
  unfold condSubtractPromotion
  split
  · rfl
  · split <;> rfl

lemma csp_teamRewards (s : State) (u : Nat) (a : ℚ) :
    (condSubtractPromotion s u a).teamRewards = s.teamRewards := by
  unfold condSubtractPromotion
  split
  · rfl
  · split <;> rfl

lemma csp_orders (s : State) (u : Nat) (a : ℚ) :
    (condSubtractPromotion s u a).orders = s.orders := by
  unfold condSubtractPromotion
  split
  · rfl
  · split <;> rfl

lemma csp_points (s : State) (u : Nat) (a : ℚ) (v : Nat) :
    ((condSubtractPromotion s u a).users v).points = (s.users v).points := by
  unfold condSubtractPromotion
  split
  · rfl
  · split
    · by_cases hv : v = u <;> simp [State.updateUser, hv]
    · rfl

lemma csp_memberLevel (s : State) (u : Nat) (a : ℚ) (v : Nat) :
    ((condSubtractPromotion s u a).users v).memberLevel = (s.users v).memberLevel := by
  unfold condSubtractPromotion
  split
  · rfl
  · split
    · by_cases hv : v = u <;> simp [State.updateUser, hv]
    · rfl

lemma csp_merchantBalance (s : State) (u : Nat) (a : ℚ) (v : Nat) :
    ((condSubtractPromotion s u a).users v).merchantBalance =
      (s.users v).merchantBalance := by
  unfold condSubtractPromotion
  split
  · rfl
  · split
    · by_cases hv : v = u <;> simp [State.updateUser, hv]
    · rfl

lemma csp_promotion_nonneg (s : State) (u : Nat) (a : ℚ) (v : Nat)
    (h : 0 ≤ (s.users v).promotionBalance) :
    0 ≤ ((condSubtractPromotion s u a).users v).promotionBalance := by
  unfold condSubtractPromotion
  split
  · exact h
  · rename_i usr hfind
    split
    · rename_i hle
      by_cases hv : v = u
      · subst hv
        obtain ⟨husr, -⟩ := findUser_eq s v usr hfind
        simp [State.updateUser, husr] at hle ⊢
        linarith
      · simp [State.updateUser, hv]
        exact h
    · exact h

lemma foldCSP_points (l : List TeamReward) :
    ∀ (s : State) (v : Nat),
      (((l.foldl (fun (s : State) (r : TeamReward) =>
          condSubtractPromotion s r.userId r.rewardAmount) s)).users v).points =
        (s.users v).points := by
  induction l with
  | nil => intro s v; rfl
  | cons r rs ih =>
      intro s v
      rw [List.foldl_cons, ih, csp_points]

lemma foldCSP_memberLevel (l : List TeamReward) :
    ∀ (s : State) (v : Nat),
      (((l.foldl (fun (s : State) (r : TeamReward) =>
          condSubtractPromotion s r.userId r.rewardAmount) s)).users v).memberLevel =
        (s.users v).memberLevel := by
  induction l with
  | nil => intro s v; rfl
  | cons r rs ih =>
      intro s v
      rw [List.foldl_cons, ih, csp_memberLevel]

lemma foldCSP_merchantBalance (l : List TeamReward) :
    ∀ (s : State) (v : Nat),
      (((l.foldl (fun (s : State) (r : TeamReward) =>
          condSubtractPromotion s r.userId r.rewardAmount) s)).users v).merchantBalance =
        (s.users v).merchantBalance := by
  induction l with
  | nil => intro s v; rfl
  | cons r rs ih =>
      intro s v
      rw [List.foldl_cons, ih, csp_merchantBalance]

lemma foldCSP_accounts (l : List TeamReward) :
    ∀ (s : State),
      ((l.foldl (fun (s : State) (r : TeamReward) =>
          condSubtractPromotion s r.userId r.rewardAmount) s)).accounts = s.accounts := by
  induction l with
  | nil => intro s; rfl
  | cons r rs ih =>
      intro s
      rw [List.foldl_cons, ih, csp_accounts]

lemma foldCSP_promotion_nonneg (l : List TeamReward) :
    ∀ (s : State) (v : Nat), 0 ≤ (s.users v).promotionBalance →
      0 ≤ (((l.foldl (fun (s : State) (r : TeamReward) =>
          condSubtractPromotion s r.userId r.rewardAmount) s)).users v).promotionBalance := by
  induction l with
  | nil => intro s v h; exact h
  | cons r rs ih =>
      intro s v h
      rw [List.foldl_cons]
      exact ih _ v (csp_promotion_nonneg s r.userId r.rewardAmount v h)

lemma getAccountBalance_prp (s : State) :
    s.getAccountBalance "platform_revenue_pool" = s.accounts.platform_revenue_pool := by
  simp [State.getAccountBalance, parseAccountKey, Accounts.get]

set_option maxHeartbeats 2000000 in
/-- C5 (amended): a successful refund of a member product order sets the
buyer's member level to max(level - 1, 0) — a decrease by exactly 1
whenever the level was positive, with a repeat refund of the same order
(possible because the refund guard reads the wrong column) leaving a
level-0 buyer at 0 — and drives no touched balance below zero: promotion
balances and points stay nonnegative, the platform revenue pool stays
nonnegative, and merchant balances are untouched. -/
theorem member_refund_level_and_nonnegativity
    (st : State) (ono : String) (st1 : State) (o : Order)
    (h : refundOrder st ono = (st1, true))
    (ho : st.orders.find? (fun x => x.orderNo == ono) = some o)
    (hm : o.isMemberOrder = true) :
    (st1.users o.userId).memberLevel = (st.users o.userId).memberLevel - 1 ∧
    (∀ v, 0 ≤ (st.users v).promotionBalance → 0 ≤ (st1.users v).promotionBalance) ∧
    (∀ v, 0 ≤ (st.users v).points → 0 ≤ (st1.users v).points) ∧
    0 ≤ st1.accounts.platform_revenue_pool ∧
    (∀ v, (st1.users v).merchantBalance = (st.users v).merchantBalance) := by
  unfold refundOrder at h
  cases hcore : refundOrderCore st ono with
  | error e =>
      rw [hcore] at h
      simp at h
  | ok sres =>
      rw [hcore] at h
      obtain ⟨rfl, -⟩ : sres = st1 ∧ True := by
        rw [Prod.mk.injEq] at h
        exact ⟨h.1, trivial⟩
      unfold refundOrderCore at hcore
      rw [ho] at hcore
      dsimp only at hcore
      split at hcore
      · simp at hcore
      · split at hcore
        · simp at hcore
        · rename_i st2 hpool
          split at hpool
          · simp at hpool
          · rename_i hlt
            obtain rfl : _ = st2 := Except.ok.inj hpool
            obtain rfl : _ = sres := Except.ok.inj hcore
            rw [not_lt, getAccountBalance_prp] at hlt
            cases ha : st.referrals o.userId with
            | none =>
                rw [ha] at hlt
                refine ⟨?_, ?_, ?_, ?_, ?_⟩
                · simp [ha, State.updateUser, foldCSP_memberLevel]
                · intro v hv
                  by_cases hvu : v = o.userId
                  · subst hvu
                    simp [ha, State.updateUser]
                    exact foldCSP_promotion_nonneg _ _ _ hv
                  · simp [ha, hvu, State.updateUser]
                    exact foldCSP_promotion_nonneg _ _ _ hv
                · intro v hv
                  by_cases hvu : v = o.userId
                  · subst hvu
                    simp [ha, State.updateUser, foldCSP_points]
                  · simp [ha, hvu, State.updateUser, foldCSP_points]
                    exact hv
                · simp only [updateUser_accounts, foldCSP_accounts] at hlt
                  simp [ha, Accounts.add, foldCSP_accounts]
                  linarith
                · intro v
                  by_cases hvu : v = o.userId <;>
                    simp [ha, hvu, State.updateUser, foldCSP_merchantBalance]
            | some rid =>
                rw [ha] at hlt
                refine ⟨?_, ?_, ?_, ?_, ?_⟩
                · simp [ha, State.updateUser, foldCSP_memberLevel, csp_memberLevel]
                · intro v hv
                  by_cases hvu : v = o.userId
                  · subst hvu
                    simp [ha, State.updateUser]
                    exact foldCSP_promotion_nonneg _ _ _ (csp_promotion_nonneg _ _ _ _ hv)
                  · simp [ha, hvu, State.updateUser]
                    exact foldCSP_promotion_nonneg _ _ _ (csp_promotion_nonneg _ _ _ _ hv)
                · intro v hv
                  by_cases hvu : v = o.userId
                  · subst hvu
                    simp [ha, State.updateUser, foldCSP_points]
                  · simp [ha, hvu, State.updateUser, foldCSP_points, csp_points]
                    exact hv
                · simp only [updateUser_accounts, foldCSP_accounts, csp_accounts] at hlt
                  simp [ha, Accounts.add, foldCSP_accounts, csp_accounts]
                  linarith
                · intro v
                  by_cases hvu : v = o.userId <;>
                    simp [ha, hvu, State.updateUser, foldCSP_merchantBalance,
                      csp_merchantBalance]

/-! ## C5: a member order that has already been refunded once (its
refund_status is refunded while its status column still reads completed,
exactly the state the refund guard bug of C3 leaves behind) can be
refunded again; the buyer sits at level 0 and stays there -/

def c5Order : Order := ⟨1, "o1", 1, 0, 10, 10, 0, true, "completed", some "refunded", 0⟩

def c5State : State :=
  { mkState [1] (fun _ => defaultUser) (fun _ => none) [⟨1, 10, true, 0, 1⟩]
      { zeroAccounts with platform_revenue_pool := 8, company_points := 2 } with
    orders := [c5Order] }

/-- C5 counterexample: order o1 is a member order and its refund succeeds,
but the buyer's member level is 0 before the refund and still 0 after it,
so a successful refund of a member-product order need not decrease the
buyer's member level by 1 (the SQL writes GREATEST(member_level - 1, 0)). -/
theorem member_refund_level_counterexample :
    ((c5State.orders.find? (fun o => o.orderNo == "o1")).map
      (fun o => o.isMemberOrder)) = some true ∧
    (c5State.users 1).memberLevel = 0 ∧
    (refundOrder c5State "o1").2 = true ∧
    ((refundOrder c5State "o1").1.users 1).memberLevel = 0 ∧
    ¬ ((refundOrder c5State "o1").1.users 1).memberLevel + 1 =
        (c5State.users 1).memberLevel := by
  norm_num +decide [c5State, c5Order, refundOrder, refundOrderCore,
    condSubtractPromotion, State.updateUser, State.findUser,
    State.getAccountBalance, Accounts.add, Accounts.get, parseAccountKey,
    mkState, zeroAccounts, defaultUser, PLATFORM_MERCHANT_ID, pyInt]

/-- witness for C5 at the concrete refund of order o1 in c5State -/
theorem member_refund_level_and_nonnegativity_witness :
    (((refundOrder c5State "o1").1.users 1).memberLevel =
      (c5State.users 1).memberLevel - 1) ∧
    (∀ v, 0 ≤ (c5State.users v).promotionBalance →
      0 ≤ ((refundOrder c5State "o1").1.users v).promotionBalance) ∧
    (∀ v, 0 ≤ (c5State.users v).points →
      0 ≤ ((refundOrder c5State "o1").1.users v).points) ∧
    0 ≤ (refundOrder c5State "o1").1.accounts.platform_revenue_pool ∧
    (∀ v, ((refundOrder c5State "o1").1.users v).merchantBalance =
      (c5State.users v).merchantBalance) := by
  have hsnd : (refundOrder c5State "o1").2 = true := by
    norm_num +decide [c5State, c5Order, refundOrder, refundOrderCore,
      condSubtractPromotion, State.updateUser, State.findUser,
      State.getAccountBalance, Accounts.add, Accounts.get, parseAccountKey,
      mkState, zeroAccounts, defaultUser, PLATFORM_MERCHANT_ID, pyInt]
  exact member_refund_level_and_nonnegativity c5State "o1"
    (refundOrder c5State "o1").1 c5Order (by rw [← hsnd]) rfl rfl
